import Mathlib

/-!
# ReportShield engine — shallow embedding and verification

This file embeds the text-processing pipeline of the ReportShield appraisal
audit service (`src/engine/__init__.py` and the `/audit` entry point of
`src/app.py`) as executable Lean definitions, and proves or refutes the
frozen claims about it.

Conventions of the embedding:
* Python strings are modelled as `String` / `List Char`; all scanning is done
  on `List Char`.
* Each Python regular expression is transcribed as an explicit matching
  function built from small backtracking combinators (`litCIk`, `repG`,
  `repL`, `altK`, `optK`, ...).  A matcher consumes characters from the front
  of the list and passes the rest to its continuation; a capture is recovered
  as the slice between two rest-lists (`sliceTo`).  Alternatives are tried in
  the order they appear in the source pattern, and quantifiers backtrack
  greedily (or lazily for `{m,n}?`), mirroring CPython `re` semantics.
* The Azure Document Intelligence client and PyMuPDF are external effects; a
  `PipeEnv` record supplies their outcomes (whether the bytes look like a
  PDF, whether the PDF opens/needs a password, the text Azure returns, the
  page texts PyMuPDF returns, the upload's file name).  `secrets.token_hex`
  is modelled by an explicit request-id argument.
* Environment toggles keep their default values from the source
  (`OUTPUT_STYLE = "analyst"`, `SHOW_VERBOSE_EVIDENCE = True`,
  `SHOW_FOOTER = True`).
-/

/-! ## Character classes (ASCII fragment of the CPython `re` classes) -/

/-- Python `\s` (ASCII range): space, tab, newline, carriage return,
vertical tab, form feed. -/
def pyWs (c : Char) : Bool :=
  c = ' ' || c = '\t' || c = '\n' || c = '\x0d' || c = '\x0b' || c = '\x0c'

/-- The class `[ \t]` used by `_normalize_text`. -/
def spTab (c : Char) : Bool := c = ' ' || c = '\t'

/-- ASCII `[0-9]`. -/
def digitA (c : Char) : Bool := '0' ≤ c && c ≤ '9'

/-- ASCII `[A-Za-z]`. -/
def alphaA (c : Char) : Bool := ('A' ≤ c && c ≤ 'Z') || ('a' ≤ c && c ≤ 'z')

/-- ASCII `[A-Za-z0-9]`. -/
def alnumA (c : Char) : Bool := alphaA c || digitA c

/-- Python `\w` (ASCII range): `[A-Za-z0-9_]`. -/
def wordA (c : Char) : Bool := alnumA c || c = '_'

/-- ASCII lowercasing, the fragment of `str.lower` the engine exercises. -/
def lowerA (c : Char) : Char :=
  if 'A' ≤ c && c ≤ 'Z' then Char.ofNat (c.toNat + 32) else c

/-- ASCII uppercasing, the fragment of `str.upper` the engine exercises. -/
def upperA (c : Char) : Char :=
  if 'a' ≤ c && c ≤ 'z' then Char.ofNat (c.toNat - 32) else c

/-- Case-insensitive character comparison (`re.IGNORECASE`, ASCII). -/
def eqCI (a b : Char) : Bool := lowerA a = lowerA b

/-! ## `_normalize_text` (engine lines 65–71)

```python
def _normalize_text(t: str) -> str:
    t = t.replace("–", "-").replace("—", "-")
    t = t.replace("\r", "\n")
    t = re.sub(r"[ \t]+", " ", t)
    t = re.sub(r"\n{3,}", "\n\n", t)
    return t.strip()
```
-/

/-- The three character-for-character `str.replace` calls of
`_normalize_text`: en dash and em dash to hyphen, carriage return to
newline. -/
def normChar (c : Char) : Char :=
  if c = '–' || c = '—' then '-' else if c = '\x0d' then '\n' else c

/-- `re.sub(r"[ \t]+", " ", t)`: every maximal run of spaces/tabs becomes a
single space.  The boolean state records that we are inside a run whose
single replacement space has already been emitted. -/
def collapseSpacesAux : Bool → List Char → List Char
  | _, [] => []
  | inRun, c :: rest =>
    if spTab c then
      if inRun then collapseSpacesAux true rest
      else ' ' :: collapseSpacesAux true rest
    else c :: collapseSpacesAux false rest

def collapseSpaces (s : List Char) : List Char := collapseSpacesAux false s

/-- `re.sub(r"\n{3,}", "\n\n", t)`: runs of three or more newlines become
exactly two.  The counter is the number of newlines already emitted for the
current run, capped at 2. -/
def collapseNLAux : Nat → List Char → List Char
  | _, [] => []
  | k, c :: rest =>
    if c = '\n' then
      if 2 ≤ k then collapseNLAux k rest
      else '\n' :: collapseNLAux (k + 1) rest
    else c :: collapseNLAux 0 rest

def collapseNL (s : List Char) : List Char := collapseNLAux 0 s

/-- Trailing counterpart of `List.dropWhile`, used for `str.strip`. -/
def dropTrailing (p : Char → Bool) : List Char → List Char
  | [] => []
  | c :: rest =>
    match dropTrailing p rest with
    | [] => if p c then [] else [c]
    | r => c :: r

/-- Python `str.strip()` (no argument): remove leading and trailing
whitespace. -/
def pyStrip (s : List Char) : List Char :=
  dropTrailing pyWs (s.dropWhile pyWs)

/-- `_normalize_text`, on character lists. -/
def normalizeTextL (s : List Char) : List Char :=
  pyStrip (collapseNL (collapseSpaces (s.map normChar)))

/-- `_normalize_text` (engine lines 65–71). -/
def normalizeText (s : String) : String :=
  String.mk (normalizeTextL s.data)

/-! ### Idempotence of `_normalize_text`

The proof proceeds by showing that each stage's output satisfies an
invariant on which every stage acts as the identity:
no dash/CR characters (`normChar`), no tab and no two adjacent
space-class characters (`collapseSpaces`), no three adjacent newlines
(`collapseNL`), and no leading/trailing whitespace (`pyStrip`).
-/

/-- Detects two adjacent `[ \t]` characters. -/
def hasSpacePair : List Char → Bool
  | a :: b :: rest => (spTab a && spTab b) || hasSpacePair (b :: rest)
  | _ => false

/-- Detects three adjacent newlines. -/
def hasTripleNL : List Char → Bool
  | a :: b :: c :: rest =>
    (a = '\n' && b = '\n' && c = '\n') || hasTripleNL (b :: c :: rest)
  | _ => false

theorem normChar_idem (c : Char) : normChar (normChar c) = normChar c := by
  unfold normChar
  split
  · simp
  · split
    · simp
    · rfl

theorem hasSpacePair_tail (a : Char) (s : List Char)
    (h : hasSpacePair (a :: s) = false) : hasSpacePair s = false := by
  cases s with
  | nil => rfl
  | cons b t =>
    unfold hasSpacePair at h
    simp only [Bool.or_eq_false_iff] at h
    exact h.2

theorem hasTripleNL_tail (a : Char) (s : List Char)
    (h : hasTripleNL (a :: s) = false) : hasTripleNL s = false := by
  cases s with
  | nil => rfl
  | cons b t =>
    cases t with
    | nil => rfl
    | cons c u =>
      unfold hasTripleNL at h
      simp only [Bool.or_eq_false_iff] at h
      exact h.2

theorem mem_collapseSpacesAux (c : Char) :
    ∀ (b : Bool) (s : List Char), c ∈ collapseSpacesAux b s → c ∈ s ∨ c = ' '
  | _, [], h => by cases h
  | b, a :: rest, h => by
    unfold collapseSpacesAux at h
    by_cases ha : spTab a = true
    · rw [if_pos ha] at h
      cases b with
      | true =>
        simp only at h
        rcases mem_collapseSpacesAux c true rest h with h2 | h2
        · exact Or.inl (List.mem_cons_of_mem a h2)
        · exact Or.inr h2
      | false =>
        rcases List.mem_cons.mp h with h2 | h2
        · exact Or.inr h2
        · rcases mem_collapseSpacesAux c true rest h2 with h3 | h3
          · exact Or.inl (List.mem_cons_of_mem a h3)
          · exact Or.inr h3
    · rw [if_neg ha] at h
      rcases List.mem_cons.mp h with h2 | h2
      · exact Or.inl (h2 ▸ List.mem_cons_self a rest)
      · rcases mem_collapseSpacesAux c false rest h2 with h3 | h3
        · exact Or.inl (List.mem_cons_of_mem a h3)
        · exact Or.inr h3

theorem tab_not_mem_collapseSpacesAux :
    ∀ (b : Bool) (s : List Char), '\t' ∉ collapseSpacesAux b s
  | _, [] => by intro h; cases h
  | b, a :: rest => by
    intro h
    unfold collapseSpacesAux at h
    by_cases ha : spTab a = true
    · rw [if_pos ha] at h
      cases b with
      | true => exact tab_not_mem_collapseSpacesAux true rest h
      | false =>
        rcases List.mem_cons.mp h with h2 | h2
        · exact absurd h2 (by decide)
        · exact tab_not_mem_collapseSpacesAux true rest h2
    · rw [if_neg ha] at h
      rcases List.mem_cons.mp h with h2 | h2
      · exact ha (h2 ▸ (show spTab '\t' = true by decide))
      · exact tab_not_mem_collapseSpacesAux false rest h2

theorem collapseSpacesAux_true_head :
    ∀ (s : List Char) (d : Char) (t : List Char),
      collapseSpacesAux true s = d :: t → spTab d = false
  | [], d, t, h => by cases h
  | a :: rest, d, t, h => by
    unfold collapseSpacesAux at h
    by_cases ha : spTab a = true
    · rw [if_pos ha] at h
      exact collapseSpacesAux_true_head rest d t h
    · rw [if_neg ha] at h
      injection h with h1 h2
      rw [← h1]
      exact Bool.eq_false_iff.mpr ha

theorem noPair_collapseSpacesAux :
    ∀ (s : List Char) (b : Bool), hasSpacePair (collapseSpacesAux b s) = false
  | [], _ => rfl
  | a :: rest, b => by
    unfold collapseSpacesAux
    by_cases ha : spTab a = true
    · rw [if_pos ha]
      cases b with
      | true => exact noPair_collapseSpacesAux rest true
      | false =>
        rcases hv : collapseSpacesAux true rest with _ | ⟨d, t⟩
        · rfl
        · have hd : spTab d = false := collapseSpacesAux_true_head rest d t hv
          simp only [Bool.false_eq_true, if_false]
          unfold hasSpacePair
          rw [hd]
          simp only [Bool.and_false, Bool.false_or]
          rw [← hv]
          exact noPair_collapseSpacesAux rest true
    · rw [if_neg ha]
      rcases hv : collapseSpacesAux false rest with _ | ⟨d, t⟩
      · rfl
      · unfold hasSpacePair
        rw [Bool.eq_false_iff.mpr ha]
        simp only [Bool.false_and, Bool.false_or]
        rw [← hv]
        exact noPair_collapseSpacesAux rest false

theorem collapseSpacesAux_id :
    ∀ (s : List Char),
      hasSpacePair s = false → ('\t' ∉ s) →
      (collapseSpacesAux false s = s ∧
        (∀ d t, s = d :: t → spTab d = false) → collapseSpacesAux true s = s) ∧
      collapseSpacesAux false s = s := by
  intro s
  induction s with
  | nil => intro _ _; exact ⟨fun _ => rfl, rfl⟩
  | cons a rest ih =>
    intro hp ht
    have hpr : hasSpacePair rest = false := hasSpacePair_tail a rest hp
    have htr : '\t' ∉ rest := fun h => ht (List.mem_cons_of_mem a h)
    have hta : a ≠ '\t' := fun h => ht (h ▸ List.mem_cons_self a rest)
    rcases ih hpr htr with ⟨_, ihf⟩
    constructor
    · rintro ⟨_, hhead⟩
      have ha : spTab a = false := hhead a rest rfl
      unfold collapseSpacesAux
      rw [if_neg (by rw [ha]; exact Bool.false_ne_true)]
      rw [ihf]
    · unfold collapseSpacesAux
      by_cases ha : spTab a = true
      · rw [if_pos ha]
        have hasp : a = ' ' := by
          unfold spTab at ha
          rcases Bool.or_eq_true_iff.mp ha with h | h
          · exact of_decide_eq_true h
          · exact absurd (of_decide_eq_true h) hta
        have hresthead : ∀ d t, rest = d :: t → spTab d = false := by
          intro d t hdt
          rw [hdt] at hp
          unfold hasSpacePair at hp
          rcases Bool.or_eq_false_iff.mp hp with ⟨h1, _⟩
          rcases Bool.and_eq_false_iff.mp h1 with h | h
          · rw [hasp] at h; exact absurd h (by decide)
          · exact h
        have : collapseSpacesAux true rest = rest := by
          rcases ih hpr htr with ⟨iht, _⟩
          exact iht ⟨ihf, hresthead⟩
        rw [this, hasp]
        simp only [Bool.false_eq_true, if_false]
      · rw [if_neg ha]
        rw [ihf]

theorem collapseSpaces_id (s : List Char)
    (hp : hasSpacePair s = false) (ht : '\t' ∉ s) :
    collapseSpaces s = s :=
  (collapseSpacesAux_id s hp ht).2

/-- The boolean `(· = '\n')` predicate. -/
def isNL (c : Char) : Bool := c = '\n'

/-- Length of the leading newline run. -/
def runNL (s : List Char) : Nat := (s.takeWhile isNL).length

theorem runNL_cons_nl (s : List Char) : runNL ('\n' :: s) = runNL s + 1 := by
  unfold runNL
  rw [List.takeWhile_cons_of_pos (by decide)]
  rfl

theorem runNL_cons_ne (c : Char) (s : List Char) (h : ¬c = '\n') :
    runNL (c :: s) = 0 := by
  unfold runNL
  rw [List.takeWhile_cons_of_neg (by simpa [isNL] using h)]
  rfl

theorem mem_collapseNLAux (c : Char) :
    ∀ (k : Nat) (s : List Char), c ∈ collapseNLAux k s → c ∈ s
  | _, [], h => by cases h
  | k, a :: rest, h => by
    unfold collapseNLAux at h
    by_cases ha : a = '\n'
    · rw [if_pos ha] at h
      by_cases hk : 2 ≤ k
      · rw [if_pos hk] at h
        exact List.mem_cons_of_mem a (mem_collapseNLAux c k rest h)
      · rw [if_neg hk] at h
        rcases List.mem_cons.mp h with h2 | h2
        · exact h2 ▸ ha ▸ List.mem_cons_self a rest
        · exact List.mem_cons_of_mem a (mem_collapseNLAux c (k + 1) rest h2)
    · rw [if_neg ha] at h
      rcases List.mem_cons.mp h with h2 | h2
      · exact h2 ▸ List.mem_cons_self a rest
      · exact List.mem_cons_of_mem a (mem_collapseNLAux c 0 rest h2)

theorem head_collapseNLAux_zero :
    ∀ (s : List Char), (collapseNLAux 0 s).head? = s.head?
  | [] => rfl
  | a :: rest => by
    unfold collapseNLAux
    by_cases ha : a = '\n'
    · rw [if_pos ha, if_neg (by omega)]
      rw [ha]
      rfl
    · rw [if_neg ha]
      rfl

theorem runNL_collapseNLAux :
    ∀ (s : List Char) (k : Nat), k ≤ 2 → runNL (collapseNLAux k s) + k ≤ 2
  | [], k, hk => by
    unfold collapseNLAux runNL
    simpa using hk
  | a :: rest, k, hk => by
    unfold collapseNLAux
    by_cases ha : a = '\n'
    · rw [if_pos ha]
      by_cases h2 : 2 ≤ k
      · rw [if_pos h2]
        exact runNL_collapseNLAux rest k hk
      · rw [if_neg h2]
        rw [runNL_cons_nl]
        have := runNL_collapseNLAux rest (k + 1) (by omega)
        omega
    · rw [if_neg ha]
      rw [runNL_cons_ne _ _ ha]
      omega

theorem hasTripleNL_cons3 (a b c : Char) (r : List Char) :
    hasTripleNL (a :: b :: c :: r) =
      ((a = '\n' && b = '\n' && c = '\n') || hasTripleNL (b :: c :: r)) := rfl

theorem noTriple_collapseNLAux :
    ∀ (s : List Char) (k : Nat), k ≤ 2 → hasTripleNL (collapseNLAux k s) = false
  | [], _, _ => rfl
  | a :: rest, k, hk => by
    unfold collapseNLAux
    by_cases ha : a = '\n'
    · rw [if_pos ha]
      by_cases h2 : 2 ≤ k
      · rw [if_pos h2]
        exact noTriple_collapseNLAux rest k hk
      · rw [if_neg h2]
        have hbound := runNL_collapseNLAux rest (k + 1) (by omega)
        have hin := noTriple_collapseNLAux rest (k + 1) (by omega)
        rcases hv : collapseNLAux (k + 1) rest with _ | ⟨x, t⟩
        · rfl
        · rcases ht : t with _ | ⟨y, u⟩
          · rfl
          · rw [hv, ht] at hin hbound
            rw [hasTripleNL_cons3, hin]
            have hxy : ¬(x = '\n' ∧ y = '\n') := by
              rintro ⟨hx, hy⟩
              rw [hx, hy, runNL_cons_nl, runNL_cons_nl] at hbound
              omega
            by_cases hx : x = '\n'
            · have hy : ¬y = '\n' := fun hy => hxy ⟨hx, hy⟩
              simp [hx, hy]
            · simp [hx]
    · rw [if_neg ha]
      have hin := noTriple_collapseNLAux rest 0 (by omega)
      rcases hv : collapseNLAux 0 rest with _ | ⟨x, t⟩
      · rfl
      · rcases ht : t with _ | ⟨y, u⟩
        · rfl
        · rw [hv, ht] at hin
          rw [hasTripleNL_cons3, hin]
          simp [ha]

theorem hasSpacePair_cons2 (a b : Char) (r : List Char) :
    hasSpacePair (a :: b :: r) =
      ((spTab a && spTab b) || hasSpacePair (b :: r)) := rfl

theorem noPair_collapseNLAux :
    ∀ (s : List Char) (k : Nat), hasSpacePair s = false →
      hasSpacePair (collapseNLAux k s) = false
  | [], _, _ => rfl
  | a :: rest, k, hp => by
    have hpr : hasSpacePair rest = false := hasSpacePair_tail a rest hp
    unfold collapseNLAux
    by_cases ha : a = '\n'
    · rw [if_pos ha]
      by_cases h2 : 2 ≤ k
      · rw [if_pos h2]
        exact noPair_collapseNLAux rest k hpr
      · rw [if_neg h2]
        have hin := noPair_collapseNLAux rest (k + 1) hpr
        rcases hv : collapseNLAux (k + 1) rest with _ | ⟨x, t⟩
        · rfl
        · rw [hv] at hin
          rw [hasSpacePair_cons2, hin]
          simp [spTab]
    · rw [if_neg ha]
      have hin := noPair_collapseNLAux rest 0 hpr
      rcases hv : collapseNLAux 0 rest with _ | ⟨x, t⟩
      · rfl
      · rw [hv] at hin
        rw [hasSpacePair_cons2, hin, Bool.or_false]
        have hhd := head_collapseNLAux_zero rest
        rw [hv] at hhd
        rcases rest with _ | ⟨r0, rr⟩
        · exact absurd hhd (by simp)
        · have hx : x = r0 := by simpa using hhd
          subst hx
          rw [hasSpacePair_cons2] at hp
          rcases Bool.or_eq_false_iff.mp hp with ⟨h1, _⟩
          exact h1

theorem runNL_le_two_of_noTriple :
    ∀ (s : List Char), hasTripleNL s = false → runNL s ≤ 2 := by
  intro s h
  rcases s with _ | ⟨a, s1⟩
  · simp [runNL]
  by_cases ha : a = '\n'
  · rcases s1 with _ | ⟨b, s2⟩
    · subst ha; rw [runNL_cons_nl]; simp [runNL]
    by_cases hb : b = '\n'
    · rcases s2 with _ | ⟨c, s3⟩
      · subst ha; subst hb
        rw [runNL_cons_nl, runNL_cons_nl]; simp [runNL]
      by_cases hc : c = '\n'
      · exfalso
        subst ha; subst hb; subst hc
        rw [hasTripleNL_cons3] at h
        simp at h
      · subst ha; subst hb
        rw [runNL_cons_nl, runNL_cons_nl, runNL_cons_ne _ _ hc]
    · subst ha
      rw [runNL_cons_nl, runNL_cons_ne _ _ hb]
      omega
  · rw [runNL_cons_ne _ _ ha]
    omega

theorem collapseNLAux_id :
    ∀ (s : List Char) (k : Nat), hasTripleNL s = false → k + runNL s ≤ 2 →
      collapseNLAux k s = s
  | [], _, _, _ => rfl
  | a :: rest, k, h3, hr => by
    unfold collapseNLAux
    by_cases ha : a = '\n'
    · rw [if_pos ha]
      have hrun : runNL (a :: rest) = runNL rest + 1 := ha ▸ runNL_cons_nl rest
      rw [if_neg (by omega)]
      rw [collapseNLAux_id rest (k + 1) (hasTripleNL_tail a rest h3) (by omega)]
      rw [ha]
    · rw [if_neg ha]
      have h3r := hasTripleNL_tail a rest h3
      rw [collapseNLAux_id rest 0 h3r (by simpa using runNL_le_two_of_noTriple rest h3r)]

theorem collapseNL_id (s : List Char) (h3 : hasTripleNL s = false) :
    collapseNL s = s :=
  collapseNLAux_id s 0 h3 (by simpa using runNL_le_two_of_noTriple s h3)

theorem dropTrailing_ext (p : Char → Bool) :
    ∀ (s : List Char), ∃ t, dropTrailing p s ++ t = s ∧ ∀ c ∈ t, p c = true
  | [] => ⟨[], rfl, by intro c h; cases h⟩
  | a :: rest => by
    rcases dropTrailing_ext p rest with ⟨t, ht, hall⟩
    unfold dropTrailing
    rcases hv : dropTrailing p rest with _ | ⟨x, u⟩
    · rw [hv] at ht
      by_cases hp : p a = true
      · rw [if_pos hp]
        exact ⟨a :: rest, rfl, by
          intro c hc
          rcases List.mem_cons.mp hc with h2 | h2
          · exact h2 ▸ hp
          · rw [← ht] at h2; exact hall c h2⟩
      · rw [if_neg hp]
        exact ⟨t, by rw [← ht]; rfl, hall⟩
    · rw [hv] at ht
      exact ⟨t, by rw [← ht]; rfl, hall⟩

theorem lastNot_dropTrailing (p : Char → Bool) :
    ∀ (s : List Char) (d : Char),
      (dropTrailing p s).getLast? = some d → p d = false
  | [], d, h => by cases h
  | a :: rest, d, h => by
    unfold dropTrailing at h
    rcases hv : dropTrailing p rest with _ | ⟨x, u⟩
    · rw [hv] at h
      by_cases hp : p a = true
      · rw [if_pos hp] at h
        cases h
      · rw [if_neg hp] at h
        simp only [List.getLast?_singleton, Option.some.injEq] at h
        rw [← h]
        exact Bool.eq_false_iff.mpr hp
    · rw [hv] at h
      rw [List.getLast?_cons_cons] at h
      rw [← hv] at h
      exact lastNot_dropTrailing p rest d h

theorem dropTrailing_id (p : Char → Bool) :
    ∀ (s : List Char),
      (∀ d, s.getLast? = some d → p d = false) → dropTrailing p s = s
  | [], _ => rfl
  | [a], h => by
    have ha : p a = false := h a (by simp)
    simp only [dropTrailing]
    rw [if_neg (by rw [ha]; exact Bool.false_ne_true)]
  | a :: b :: u, h => by
    have hr : dropTrailing p (b :: u) = b :: u :=
      dropTrailing_id p (b :: u)
        (fun d hd => h d (by rw [List.getLast?_cons_cons]; exact hd))
    unfold dropTrailing
    rw [hr]

theorem hasSpacePair_append_left (l r : List Char)
    (h : hasSpacePair (l ++ r) = false) : hasSpacePair l = false := by
  induction l with
  | nil => rfl
  | cons a t ih =>
    rcases t with _ | ⟨b, u⟩
    · rfl
    · rw [List.cons_append, List.cons_append, hasSpacePair_cons2] at h
      rcases Bool.or_eq_false_iff.mp h with ⟨h1, h2⟩
      rw [← List.cons_append] at h2
      rw [hasSpacePair_cons2, h1, ih h2]
      rfl

theorem hasSpacePair_append_right (l r : List Char)
    (h : hasSpacePair (l ++ r) = false) : hasSpacePair r = false := by
  induction l with
  | nil => exact h
  | cons a t ih =>
    rw [List.cons_append] at h
    exact ih (hasSpacePair_tail a (t ++ r) h)

theorem hasTripleNL_append_left (l r : List Char)
    (h : hasTripleNL (l ++ r) = false) : hasTripleNL l = false := by
  induction l with
  | nil => rfl
  | cons a t ih =>
    rcases t with _ | ⟨b, u⟩
    · rfl
    · rcases u with _ | ⟨c, v⟩
      · rfl
      · rw [List.cons_append, List.cons_append, List.cons_append,
          hasTripleNL_cons3] at h
        rcases Bool.or_eq_false_iff.mp h with ⟨h1, h2⟩
        rw [← List.cons_append, ← List.cons_append] at h2
        rw [hasTripleNL_cons3, h1, ih h2]
        rfl

theorem hasTripleNL_append_right (l r : List Char)
    (h : hasTripleNL (l ++ r) = false) : hasTripleNL r = false := by
  induction l with
  | nil => exact h
  | cons a t ih =>
    rw [List.cons_append] at h
    exact ih (hasTripleNL_tail a (t ++ r) h)

theorem head_dropWhile_not (p : Char → Bool) :
    ∀ (s : List Char) (d : Char) (t : List Char),
      s.dropWhile p = d :: t → p d = false
  | [], d, t, h => by cases h
  | a :: rest, d, t, h => by
    rw [List.dropWhile_cons] at h
    by_cases hp : p a = true
    · rw [if_pos hp] at h
      exact head_dropWhile_not p rest d t h
    · rw [if_neg hp] at h
      injection h with h1 _
      rw [← h1]
      exact Bool.eq_false_iff.mpr hp

theorem pyStrip_sub (s : List Char) : ∀ c ∈ pyStrip s, c ∈ s := by
  intro c hc
  unfold pyStrip at hc
  rcases dropTrailing_ext pyWs (s.dropWhile pyWs) with ⟨t, ht, _⟩
  have h1 : c ∈ s.dropWhile pyWs := by
    rw [← ht]
    exact List.mem_append_left t hc
  have h2 : s.takeWhile pyWs ++ s.dropWhile pyWs = s := List.takeWhile_append_dropWhile pyWs s
  rw [← h2]
  exact List.mem_append_right _ h1

theorem noPair_pyStrip (s : List Char) (h : hasSpacePair s = false) :
    hasSpacePair (pyStrip s) = false := by
  unfold pyStrip
  rcases dropTrailing_ext pyWs (s.dropWhile pyWs) with ⟨t, ht, _⟩
  have h2 : s.takeWhile pyWs ++ s.dropWhile pyWs = s := List.takeWhile_append_dropWhile pyWs s
  have hdw : hasSpacePair (s.dropWhile pyWs) = false := by
    apply hasSpacePair_append_right (s.takeWhile pyWs)
    rw [h2]; exact h
  apply hasSpacePair_append_left _ t
  rw [ht]; exact hdw

theorem noTriple_pyStrip (s : List Char) (h : hasTripleNL s = false) :
    hasTripleNL (pyStrip s) = false := by
  unfold pyStrip
  rcases dropTrailing_ext pyWs (s.dropWhile pyWs) with ⟨t, ht, _⟩
  have h2 : s.takeWhile pyWs ++ s.dropWhile pyWs = s := List.takeWhile_append_dropWhile pyWs s
  have hdw : hasTripleNL (s.dropWhile pyWs) = false := by
    apply hasTripleNL_append_right (s.takeWhile pyWs)
    rw [h2]; exact h
  apply hasTripleNL_append_left _ t
  rw [ht]; exact hdw

theorem head_pyStrip (s : List Char) (d : Char) (t : List Char)
    (h : pyStrip s = d :: t) : pyWs d = false := by
  unfold pyStrip at h
  rcases dropTrailing_ext pyWs (s.dropWhile pyWs) with ⟨u, hu, _⟩
  rw [h] at hu
  rcases hv : s.dropWhile pyWs with _ | ⟨x, v⟩
  · rw [hv] at hu; cases hu
  · rw [hv] at hu
    have hx : d = x := by
      have := congrArg List.head? hu
      simpa using this
    rw [hx]
    exact head_dropWhile_not pyWs s x v hv

theorem last_pyStrip (s : List Char) (d : Char)
    (h : (pyStrip s).getLast? = some d) : pyWs d = false :=
  lastNot_dropTrailing pyWs _ d h

theorem pyStrip_id (s : List Char)
    (hh : ∀ d t, s = d :: t → pyWs d = false)
    (hl : ∀ d, s.getLast? = some d → pyWs d = false) :
    pyStrip s = s := by
  unfold pyStrip
  have hdw : s.dropWhile pyWs = s := by
    rcases s with _ | ⟨a, t⟩
    · rfl
    · rw [List.dropWhile_cons, if_neg (by rw [hh a t rfl]; exact Bool.false_ne_true)]
  rw [hdw]
  exact dropTrailing_id pyWs s hl

theorem map_fix_id (f : Char → Char) :
    ∀ (s : List Char), (∀ c ∈ s, f c = c) → s.map f = s
  | [], _ => rfl
  | a :: t, h => by
    rw [List.map_cons, h a (List.mem_cons_self a t),
      map_fix_id f t (fun c hc => h c (List.mem_cons_of_mem a hc))]

theorem normChar_fix_of_mem_normalizeTextL (t : List Char) :
    ∀ c ∈ normalizeTextL t, normChar c = c := by
  intro c hc
  unfold normalizeTextL at hc
  have h1 : c ∈ collapseNL (collapseSpaces (t.map normChar)) := pyStrip_sub _ c hc
  have h2 : c ∈ collapseSpaces (t.map normChar) := mem_collapseNLAux c 0 _ h1
  rcases mem_collapseSpacesAux c false _ h2 with h3 | h3
  · rcases List.mem_map.mp h3 with ⟨a, _, ha⟩
    rw [← ha]
    exact normChar_idem a
  · rw [h3]; rfl

theorem noPair_normalizeTextL (t : List Char) :
    hasSpacePair (normalizeTextL t) = false := by
  unfold normalizeTextL
  apply noPair_pyStrip
  apply noPair_collapseNLAux
  exact noPair_collapseSpacesAux _ false

theorem noTab_normalizeTextL (t : List Char) : '\t' ∉ normalizeTextL t := by
  intro h
  unfold normalizeTextL at h
  have h1 : '\t' ∈ collapseNL (collapseSpaces (t.map normChar)) := pyStrip_sub _ _ h
  have h2 : '\t' ∈ collapseSpaces (t.map normChar) := mem_collapseNLAux _ 0 _ h1
  exact tab_not_mem_collapseSpacesAux false _ h2

theorem noTriple_normalizeTextL (t : List Char) :
    hasTripleNL (normalizeTextL t) = false := by
  unfold normalizeTextL
  apply noTriple_pyStrip
  exact noTriple_collapseNLAux _ 0 (by omega)

theorem pyStrip_idem (s : List Char) : pyStrip (pyStrip s) = pyStrip s := by
  apply pyStrip_id
  · intro d u h
    exact head_pyStrip s d u h
  · intro d h
    exact last_pyStrip s d h

theorem normalizeTextL_idem (t : List Char) :
    normalizeTextL (normalizeTextL t) = normalizeTextL t := by
  show pyStrip (collapseNL (collapseSpaces ((normalizeTextL t).map normChar))) =
    normalizeTextL t
  rw [map_fix_id normChar _ (normChar_fix_of_mem_normalizeTextL t)]
  rw [collapseSpaces_id _ (noPair_normalizeTextL t) (noTab_normalizeTextL t)]
  rw [collapseNL_id _ (noTriple_normalizeTextL t)]
  exact pyStrip_idem (collapseNL (collapseSpaces (t.map normChar)))

/-! ## Pattern-matching combinators

Each Python regular expression in the engine is transcribed as a matcher
built from the combinators below.  A matcher of type `K α` inspects the
front of a character list and passes the unconsumed rest to its
continuation.  Alternatives (`altK`) are tried left to right and quantifiers
backtrack from the greedy (resp. lazy) extreme, mirroring CPython `re`.
-/

abbrev K (α : Type) := List Char → Option α

/-- Capture: the characters consumed between the list at a group's start and
the list at its end. -/
def sliceTo (s r : List Char) : List Char := s.take (s.length - r.length)

/-- Case-sensitive literal. -/
def litCSk (w : List Char) (k : K α) : K α :=
  match w with
  | [] => k
  | c :: wr => fun s =>
    match s with
    | [] => none
    | a :: rest => if a = c then litCSk wr k rest else none

/-- Case-insensitive literal (`re.IGNORECASE`). -/
def litCIk (w : List Char) (k : K α) : K α :=
  match w with
  | [] => k
  | c :: wr => fun s =>
    match s with
    | [] => none
    | a :: rest => if eqCI a c then litCIk wr k rest else none

/-- Single character from a class. -/
def clsK (p : Char → Bool) (k : K α) : K α := fun s =>
  match s with
  | [] => none
  | a :: rest => if p a then k rest else none

/-- Greedy `p{lo,hi}` with backtracking (longest first). -/
def repG (p : Char → Bool) : Nat → Nat → K α → K α
  | lo, 0, k => fun s => if lo = 0 then k s else none
  | lo, hi + 1, k => fun s =>
    match s with
    | [] => if lo = 0 then k [] else none
    | a :: rest =>
      if p a then
        match repG p (lo - 1) hi k rest with
        | some r => some r
        | none => if lo = 0 then k s else none
      else if lo = 0 then k s else none

/-- Lazy `p{lo,hi}?` with backtracking (shortest first). -/
def repL (p : Char → Bool) : Nat → Nat → K α → K α
  | lo, 0, k => fun s => if lo = 0 then k s else none
  | lo, hi + 1, k => fun s =>
    if lo = 0 then
      match k s with
      | some r => some r
      | none =>
        match s with
        | [] => none
        | a :: rest => if p a then repL p 0 hi k rest else none
    else
      match s with
      | [] => none
      | a :: rest => if p a then repL p (lo - 1) hi k rest else none

/-- Greedy unbounded `p{lo,}` (`+`, `*`). -/
def repGU (p : Char → Bool) (lo : Nat) (k : K α) : K α := fun s =>
  repG p lo s.length k s

/-- Lazy unbounded `p{lo,}?` (`+?`, `*?`). -/
def repLU (p : Char → Bool) (lo : Nat) (k : K α) : K α := fun s =>
  repL p lo s.length k s

/-- Greedy option `(?:...)?` over an arbitrary fragment. -/
def optK (f : K α → K α) (k : K α) : K α := fun s =>
  match f k s with
  | some r => some r
  | none => k s

/-- Alternation, left alternative preferred. -/
def altK (f g : K α → K α) (k : K α) : K α := fun s =>
  match f k s with
  | some r => some r
  | none => g k s

def alt3K (f g h : K α → K α) (k : K α) : K α := altK f (altK g h) k

def alt4K (f g h i : K α → K α) (k : K α) : K α := altK f (alt3K g h i) k

/-- Greedy `(?:fragment){0,n}` over a non-character fragment. -/
def repUpTo (u : K α → K α) : Nat → K α → K α
  | 0, k => k
  | n + 1, k => fun s =>
    match u (repUpTo u n k) s with
    | some r => some r
    | none => k s

/-- Run a fragment and hand the consumed slice to the rest of the pattern. -/
def grabK (f : K α → K α) (g : List Char → K α) : K α := fun s =>
  f (fun r => g (sliceTo s r) r) s

/-- Is an optional character a `\w` word character (`\b` support)? -/
def isWordO : Option Char → Bool
  | none => false
  | some c => wordA c

/-- `\b` given the character before the position and the list after it. -/
def atBoundary (prev : Option Char) (s : List Char) : Bool :=
  isWordO prev != isWordO s.head?

/-- `\b` at a point where the previous character is known to be a word
character: succeed only if the next character is not. -/
def bdryAfterWord (k : K α) : K α := fun s =>
  if isWordO s.head? then none else k s

/-- `re.search`: leftmost match wins. -/
def searchK (m : K α) : List Char → Option α
  | [] => m []
  | s@(_ :: rest) =>
    match m s with
    | some r => some r
    | none => searchK m rest

/-- `re.search` for patterns that look at the preceding character
(leading `\b`, lookbehind). -/
def searchBK (m : Option Char → K α) : Option Char → List Char → Option α
  | prev, [] => m prev []
  | prev, s@(c :: rest) =>
    match m prev s with
    | some r => some r
    | none => searchBK m (some c) rest

/-- `re.search` returning the number of characters before the match. -/
def searchPosK (m : K α) : Nat → List Char → Option (Nat × α)
  | i, [] => (m []).map (fun r => (i, r))
  | i, s@(_ :: rest) =>
    match m s with
    | some r => some (i, r)
    | none => searchPosK m (i + 1) rest

/-- `re.findall`: leftmost, non-overlapping; the matcher returns its capture
together with the rest after the whole match.  The fuel starts at
`length + 1`, enough because every engine pattern consumes at least one
character on success. -/
def findallK (m : List Char → Option (β × List Char)) : Nat → List Char → List β
  | 0, _ => []
  | _ + 1, [] =>
    match m [] with
    | some (b, _) => [b]
    | none => []
  | f + 1, s@(_ :: rest) =>
    match m s with
    | some (b, after) => b :: findallK m f after
    | none => findallK m f rest

/-- `re.findall` threading the previous character (for leading `\b`). -/
def findallBK (m : Option Char → List Char → Option (β × List Char)) :
    Nat → Option Char → List Char → List β
  | 0, _, _ => []
  | _ + 1, prev, [] =>
    match m prev [] with
    | some (b, _) => [b]
    | none => []
  | f + 1, prev, s@(c :: rest) =>
    match m prev s with
    | some (b, after) => b :: findallBK m f (sliceTo s after).getLast? after
    | none => findallBK m f (some c) rest

/-- Python `x in y` (case-sensitive substring). -/
def containsSub (hay needle : List Char) : Bool :=
  (searchK (litCSk needle (fun r => some r)) hay).isSome

/-- Case-insensitive substring (`re.search` on a literal with
`re.IGNORECASE`). -/
def containsSubCI (hay needle : List Char) : Bool :=
  (searchK (litCIk needle (fun r => some r)) hay).isSome

/-! ## `_extract_va_case` (engine lines 321–344)

```python
cands = re.findall(
    r"(?:VA\s*(?:Case|Loan)\s*(?:No\.?|Number)?:?\s*)?"
    r"(26[\s-]?26[\s-]?[A-Za-z0-9][\s-]?[A-Za-z0-9]{6,8})",
    text, re.IGNORECASE)
for c in cands:
    token = re.sub(r"[^A-Za-z0-9]", "", c)
    if len(token) >= 11 and token.startswith("2626"):
        mid = token[4:5].upper()
        tail = token[5:12]
        tail = (tail + "0"*7)[:7]
        return f"26-26-{mid}-{tail}"
m2 = re.search(r"\b26[\s-]?26[\s-]?[A-Za-z0-9][\s-]?[A-Za-z0-9]{6,8}\b", text)
if m2: ... same reconstruction from m2.group(0) ...
return ""
```

The core token `26[\s-]?26[\s-]?[A-Za-z0-9][\s-]?[A-Za-z0-9]{6,8}` is
deterministic except for the final `{6,8}`: each optional separator's
character class (`[\s-]`) is disjoint from what must follow it (a digit or
an alphanumeric), so consuming a separator when present is the only path
that can succeed; the final bounded repeat is greedy (capped at 8) in the
first pattern and backtracks from 8 to 6 against the trailing `\b` in the
second. -/

/-- The class `[\s-]`. -/
def isSepSpDash (c : Char) : Bool := pyWs c || c = '-'

/-- Match an optional `[\s-]` separator (deterministic, see above). -/
def optSep (s : List Char) : List Char × List Char :=
  match s with
  | c :: r => if isSepSpDash c then ([c], r) else ([], s)
  | [] => ([], [])

/-- Greedily take up to `n` `[A-Za-z0-9]` characters. -/
def takeAlnumUpTo : Nat → List Char → List Char × List Char
  | 0, s => ([], s)
  | _ + 1, [] => ([], [])
  | n + 1, s@(c :: r) =>
    if alnumA c then
      let p := takeAlnumUpTo n r
      (c :: p.1, p.2)
    else ([], s)

/-- Take exactly `n` `[A-Za-z0-9]` characters. -/
def takeAlnumExact : Nat → List Char → Option (List Char × List Char)
  | 0, s => some ([], s)
  | _ + 1, [] => none
  | n + 1, c :: r =>
    if alnumA c then (takeAlnumExact n r).map (fun p => (c :: p.1, p.2))
    else none

/-- The pieces of one match of the VA-case core token. -/
structure VaParts where
  s1 : List Char
  s2 : List Char
  mid : Char
  s3 : List Char
  tl : List Char

/-- The matched text (`group(0)` of the core token). -/
def vaPartsChars (m : VaParts) : List Char :=
  '2' :: '6' :: m.s1 ++ '2' :: '6' :: m.s2 ++ m.mid :: m.s3 ++ m.tl

/-- Strip a case-sensitive literal, returning the rest. -/
def stripCS : List Char → List Char → Option (List Char)
  | [], s => some s
  | _ :: _, [] => none
  | c :: wr, a :: rest => if a = c then stripCS wr rest else none

/-- The core token without boundary context (first pattern: the capture
group of the `findall`). -/
def vaCore (s : List Char) : Option (VaParts × List Char) :=
  match stripCS (("26").data) s with
  | none => none
  | some r1 =>
    match stripCS (("26").data) (optSep r1).2 with
    | none => none
    | some r3 =>
      match (optSep r3).2 with
      | [] => none
      | m :: r5 =>
        if alnumA m then
          if 6 ≤ (takeAlnumUpTo 8 (optSep r5).2).1.length then
            some (⟨(optSep r1).1, (optSep r3).1, m, (optSep r5).1,
              (takeAlnumUpTo 8 (optSep r5).2).1⟩,
              (takeAlnumUpTo 8 (optSep r5).2).2)
          else none
        else none

/-- `[A-Za-z0-9]{6,8}\b`: backtrack from 8 to 6 against the boundary. -/
def tryTail (n : Nat) (s : List Char) : Option (List Char × List Char) :=
  match takeAlnumExact n s with
  | some p => if isWordO p.2.head? then none else some p
  | none => none

def vaTailB (s : List Char) : Option (List Char × List Char) :=
  match tryTail 8 s with
  | some v => some v
  | none =>
    match tryTail 7 s with
    | some v => some v
    | none => tryTail 6 s

/-- The core token of the second pattern, with leading and trailing `\b`
(the token starts with the word character `2`, so the leading boundary is
equivalent to the previous character not being a word character). -/
def vaCore2 (prev : Option Char) (s : List Char) : Option (VaParts × List Char) :=
  if isWordO prev then none
  else
    match stripCS (("26").data) s with
    | none => none
    | some r1 =>
      match stripCS (("26").data) (optSep r1).2 with
      | none => none
      | some r3 =>
        match (optSep r3).2 with
        | [] => none
        | m :: r5 =>
          if alnumA m then
            match vaTailB (optSep r5).2 with
            | some pt =>
              some (⟨(optSep r1).1, (optSep r3).1, m, (optSep r5).1, pt.1⟩, pt.2)
            | none => none
          else none

/-- Case-insensitively strip a literal word, returning the rest. -/
def stripCI : List Char → List Char → Option (List Char)
  | [], s => some s
  | _ :: _, [] => none
  | c :: wr, a :: rest => if eqCI a c then stripCI wr rest else none

def dropOptColon (s : List Char) : List Char :=
  match s with
  | ':' :: r => r
  | _ => s

def orO (a b : Option α) : Option α :=
  match a with
  | some x => some x
  | none => b

/-- `:?\s*` then the captured core token. -/
def vaColonWs (s : List Char) : Option (VaParts × List Char) :=
  vaCore ((dropOptColon s).dropWhile pyWs)

/-- One position of the first VA-case pattern: the optional
`VA\s*(?:Case|Loan)\s*(?:No\.?|Number)?:?\s*` label, then the captured core
token; on failure of the labelled parse the label is dropped (the `(?:...)?`
backtracks to the empty string). -/
def vaStep1 (s : List Char) : Option (VaParts × List Char) :=
  let pre :=
    match stripCI (("VA").data) s with
    | none => none
    | some r1 =>
      let r2 := r1.dropWhile pyWs
      match orO (stripCI (("Case").data) r2) (stripCI (("Loan").data) r2) with
      | none => none
      | some r3 =>
        let r4 := r3.dropWhile pyWs
        orO (match stripCI (("No.").data) r4 with
             | some r5 => vaColonWs r5
             | none => none)
          (orO (match stripCI (("No").data) r4 with
                | some r5 => vaColonWs r5
                | none => none)
            (orO (match stripCI (("Number").data) r4 with
                  | some r5 => vaColonWs r5
                  | none => none)
              (vaColonWs r4)))
  orO pre (vaCore s)

/-- `re.findall` of the first pattern: list of `group(1)` character lists. -/
def vaFindall (t : List Char) : List (List Char) :=
  findallK (fun s => (vaStep1 s).map (fun m => (vaPartsChars m.1, m.2)))
    (t.length + 1) t

def filterAlnum (s : List Char) : List Char := s.filter alnumA

def startsWith2626 (token : List Char) : Bool :=
  decide (token.take 4 = ['2', '6', '2', '6'])

/-- `f"26-26-{mid}-{tail}"` with `mid = token[4:5].upper()` and
`tail = (token[5:12] + "0"*7)[:7]`. -/
def mkVaCase (token : List Char) : String :=
  let mid := ((token.drop 4).take 1).map upperA
  let tl := ((token.drop 5).take 7 ++ List.replicate 7 '0').take 7
  String.mk ((("26-26-").data) ++ mid ++ '-' :: tl)

/-- The `for c in cands:` loop. -/
def vaLoop : List (List Char) → Option String
  | [] => none
  | c :: rest =>
    let token := filterAlnum c
    if 11 ≤ token.length && startsWith2626 token then some (mkVaCase token)
    else vaLoop rest

/-- `re.search` of the second pattern. -/
def vaSearch2 (t : List Char) : Option VaParts :=
  searchBK (fun prev s => (vaCore2 prev s).map Prod.fst) none t

/-- `_extract_va_case` (engine lines 321–344). -/
def extract_va_case (t : String) : String :=
  match vaLoop (vaFindall t.data) with
  | some r => r
  | none =>
    match vaSearch2 t.data with
    | some m => mkVaCase (filterAlnum (vaPartsChars m))
    | none => ""

/-! ### Shape of `_extract_va_case` results (claim C10) -/

/-- ASCII lowercase-letter test. -/
def isLowerB (c : Char) : Bool := 'a' ≤ c && c ≤ 'z'

theorem upperA_spec (c : Char) (h : alnumA c = true) :
    alnumA (upperA c) = true ∧ isLowerB (upperA c) = false := by
  unfold upperA
  by_cases hl : ('a' ≤ c && c ≤ 'z') = true
  · rw [if_pos hl]
    rcases Bool.and_eq_true_iff.mp hl with ⟨d1, d2⟩
    have h1 : 97 ≤ c.toNat := by
      have := of_decide_eq_true d1
      rw [Char.le_def, UInt32.le_def] at this
      exact this
    have h2 : c.toNat ≤ 122 := by
      have := of_decide_eq_true d2
      rw [Char.le_def, UInt32.le_def] at this
      exact this
    set n := c.toNat with hn
    interval_cases n <;> exact ⟨by decide, by decide⟩
  · rw [if_neg hl]
    refine ⟨h, ?_⟩
    unfold isLowerB
    exact Bool.eq_false_iff.mpr hl

theorem takeAlnumExact_spec :
    ∀ (n : Nat) (s : List Char) (p : List Char × List Char),
      takeAlnumExact n s = some p →
      p.1.length = n ∧ ∀ c ∈ p.1, alnumA c = true
  | 0, s, p, h => by
    unfold takeAlnumExact at h
    injection h with h
    rw [← h]
    exact ⟨rfl, by intro c hc; cases hc⟩
  | n + 1, [], p, h => by cases h
  | n + 1, a :: r, p, h => by
    unfold takeAlnumExact at h
    by_cases ha : alnumA a = true
    · rw [if_pos ha] at h
      rcases hq : takeAlnumExact n r with _ | q
      · rw [hq] at h; cases h
      · rw [hq] at h
        injection h with h
        rcases takeAlnumExact_spec n r q hq with ⟨hlen, hall⟩
        rw [← h]
        constructor
        · simp [hlen]
        · intro c hc
          rcases List.mem_cons.mp hc with h2 | h2
          · exact h2 ▸ ha
          · exact hall c h2
    · rw [if_neg ha] at h; cases h

theorem tryTail_spec (n : Nat) (s : List Char) (p : List Char × List Char)
    (h : tryTail n s = some p) :
    p.1.length = n ∧ ∀ c ∈ p.1, alnumA c = true := by
  unfold tryTail at h
  rcases he : takeAlnumExact n s with _ | q
  · simp only [he] at h
    cases h
  · simp only [he] at h
    by_cases hb : isWordO q.2.head? = true
    · rw [if_pos hb] at h; cases h
    · rw [if_neg hb] at h
      injection h with h
      exact h ▸ takeAlnumExact_spec n s q he

theorem vaTailB_spec (s : List Char) (p : List Char × List Char)
    (h : vaTailB s = some p) :
    6 ≤ p.1.length ∧ ∀ c ∈ p.1, alnumA c = true := by
  unfold vaTailB at h
  rcases h8 : tryTail 8 s with _ | v8
  · simp only [h8] at h
    rcases h7 : tryTail 7 s with _ | v7
    · simp only [h7] at h
      rcases tryTail_spec 6 s p h with ⟨hl, ha⟩
      exact ⟨by omega, ha⟩
    · simp only [h7] at h
      injection h with h
      rcases tryTail_spec 7 s v7 h7 with ⟨hl, ha⟩
      rw [h] at hl ha
      exact ⟨by omega, ha⟩
  · simp only [h8] at h
    injection h with h
    rcases tryTail_spec 8 s v8 h8 with ⟨hl, ha⟩
    rw [h] at hl ha
    exact ⟨by omega, ha⟩

theorem sep_not_alnum (c : Char) (h : isSepSpDash c = true) : alnumA c = false := by
  unfold isSepSpDash pyWs at h
  simp only [Bool.or_eq_true, decide_eq_true_eq] at h
  rcases h with ((((((h | h) | h) | h) | h) | h) | h) <;> subst h <;> decide

theorem optSep_spec (s : List Char) : ∀ c ∈ (optSep s).1, alnumA c = false := by
  rcases s with _ | ⟨a, r⟩
  · intro c hc; simp [optSep] at hc
  · by_cases ha : isSepSpDash a = true
    · simp only [optSep, if_pos ha]
      intro c hc
      rcases List.mem_cons.mp hc with h2 | h2
      · exact h2 ▸ sep_not_alnum a ha
      · cases h2
    · simp only [optSep, if_neg ha]
      intro c hc; cases hc

/-- Joint specification of a `vaCore2` match: the middle and tail are
alphanumeric, the tail has at least six characters, and the separators are
non-alphanumeric. -/
def vaPartsOk (m : VaParts) : Prop :=
  alnumA m.mid = true ∧ 6 ≤ m.tl.length ∧ (∀ c ∈ m.tl, alnumA c = true) ∧
  (∀ c ∈ m.s1, alnumA c = false) ∧ (∀ c ∈ m.s2, alnumA c = false) ∧
  (∀ c ∈ m.s3, alnumA c = false)

theorem vaCore2_spec (prev : Option Char) (s : List Char)
    (m : VaParts) (r : List Char) (h : vaCore2 prev s = some (m, r)) :
    vaPartsOk m := by
  unfold vaCore2 at h
  by_cases hw : isWordO prev = true
  · rw [if_pos hw] at h; cases h
  · rw [if_neg hw] at h
    rcases h1 : stripCS (("26").data) s with _ | r1
    · simp only [h1] at h; cases h
    · simp only [h1] at h
      rcases h2 : stripCS (("26").data) (optSep r1).2 with _ | r3
      · simp only [h2] at h; cases h
      · simp only [h2] at h
        rcases h3 : (optSep r3).2 with _ | ⟨mc, r5⟩
        · simp only [h3] at h; cases h
        · simp only [h3] at h
          by_cases hm : alnumA mc = true
          · rw [if_pos hm] at h
            rcases h4 : vaTailB (optSep r5).2 with _ | pt
            · simp only [h4] at h; cases h
            · simp only [h4] at h
              injection h with h
              injection h with hml hrr
              rcases vaTailB_spec _ pt h4 with ⟨htl, hta⟩
              rw [← hml]
              exact ⟨hm, htl, hta, optSep_spec r1, optSep_spec r3, optSep_spec r5⟩
          · rw [if_neg hm] at h; cases h

theorem vaSearch2_spec (t : List Char) (m : VaParts)
    (h : vaSearch2 t = some m) : vaPartsOk m := by
  unfold vaSearch2 at h
  suffices hgen : ∀ (prev : Option Char) (u : List Char),
      searchBK (fun prev s => (vaCore2 prev s).map Prod.fst) prev u = some m →
      vaPartsOk m from hgen none t h
  intro prev u
  induction u generalizing prev with
  | nil =>
    intro hh
    unfold searchBK at hh
    rcases hc : vaCore2 prev [] with _ | pr
    · simp only [hc] at hh
      cases hh
    · simp only [hc] at hh
      injection hh with hh
      exact hh ▸ vaCore2_spec prev [] pr.1 pr.2 hc
  | cons c rest ih =>
    intro hh
    unfold searchBK at hh
    rcases hc : vaCore2 prev (c :: rest) with _ | pr
    · simp only [hc] at hh
      exact ih (some c) hh
    · simp only [hc] at hh
      injection hh with hh
      exact hh ▸ vaCore2_spec prev (c :: rest) pr.1 pr.2 hc

theorem filter_false_nil (p : Char → Bool) :
    ∀ (l : List Char), (∀ c ∈ l, p c = false) → l.filter p = []
  | [], _ => rfl
  | a :: r, h => by
    rw [List.filter_cons_of_neg (by rw [h a (List.mem_cons_self a r)]; exact Bool.false_ne_true)]
    exact filter_false_nil p r (fun c hc => h c (List.mem_cons_of_mem a hc))

theorem filter_true_self (p : Char → Bool) :
    ∀ (l : List Char), (∀ c ∈ l, p c = true) → l.filter p = l
  | [], _ => rfl
  | a :: r, h => by
    rw [List.filter_cons_of_pos (h a (List.mem_cons_self a r))]
    rw [filter_true_self p r (fun c hc => h c (List.mem_cons_of_mem a hc))]

theorem filterAlnum_vaParts (m : VaParts) (hm : vaPartsOk m) :
    filterAlnum (vaPartsChars m) = '2' :: '6' :: '2' :: '6' :: m.mid :: m.tl := by
  rcases hm with ⟨hmid, _, htl, hs1, hs2, hs3⟩
  unfold vaPartsChars filterAlnum
  have d2 : alnumA '2' = true := by decide
  have d6 : alnumA '6' = true := by decide
  rw [List.filter_append, List.filter_append, List.filter_append]
  rw [List.filter_cons_of_pos d2, List.filter_cons_of_pos d6, filter_false_nil _ _ hs1]
  rw [List.filter_cons_of_pos d2, List.filter_cons_of_pos d6, filter_false_nil _ _ hs2]
  rw [List.filter_cons_of_pos hmid, filter_false_nil _ _ hs3]
  rw [filter_true_self _ _ htl]
  rfl

/-- The canonical shape of a non-empty `_extract_va_case` result:
`26-26-` followed by one non-lowercase alphanumeric character, a hyphen, and
exactly seven alphanumeric characters — fifteen characters in all. -/
def vaCaseShape (r : String) : Prop :=
  r = ("") ∨ ∃ (mid : Char) (tl : List Char),
    r.data = (("26-26-").data) ++ mid :: '-' :: tl ∧
    alnumA mid = true ∧ isLowerB mid = false ∧
    tl.length = 7 ∧ (∀ c ∈ tl, alnumA c = true) ∧ r.length = 15

theorem mkVaCase_shape (token : List Char) (h5 : 5 ≤ token.length)
    (hall : ∀ c ∈ token, alnumA c = true) :
    ∃ (mid : Char) (tl : List Char),
      (mkVaCase token).data = (("26-26-").data) ++ mid :: '-' :: tl ∧
      alnumA mid = true ∧ isLowerB mid = false ∧
      tl.length = 7 ∧ (∀ c ∈ tl, alnumA c = true) ∧
      (mkVaCase token).length = 15 := by
  have hd : token.drop 4 ≠ [] := by
    intro hnil
    have hlen := congrArg List.length hnil
    rw [List.length_drop] at hlen
    simp at hlen
    omega
  rcases hex : token.drop 4 with _ | ⟨m0, r0⟩
  · exact absurd hex hd
  have hm0 : m0 ∈ token := List.drop_subset 4 token (hex ▸ List.mem_cons_self m0 r0)
  rcases upperA_spec m0 (hall m0 hm0) with ⟨hua, hul⟩
  refine ⟨upperA m0, ((token.drop 5).take 7 ++ List.replicate 7 '0').take 7,
    ?_, hua, hul, ?_, ?_, ?_⟩
  · show (("26-26-").data) ++ ((token.drop 4).take 1).map upperA ++
      '-' :: ((token.drop 5).take 7 ++ List.replicate 7 '0').take 7 =
      (("26-26-").data) ++ upperA m0 :: '-' ::
        ((token.drop 5).take 7 ++ List.replicate 7 '0').take 7
    rw [hex]
    rfl
  · rw [List.length_take, List.length_append, List.length_replicate]
    omega
  · intro c hc
    have hc2 := List.take_subset 7 _ hc
    rcases List.mem_append.mp hc2 with h2 | h2
    · exact hall c (List.drop_subset 5 token (List.take_subset 7 _ h2))
    · rw [List.eq_of_mem_replicate h2]
      decide
  · show (("26-26-").data ++ ((token.drop 4).take 1).map upperA ++
      '-' :: ((token.drop 5).take 7 ++ List.replicate 7 '0').take 7).length = 15
    rw [hex]
    simp only [List.take_cons, List.take_zero, List.map_cons, List.map_nil]
    rw [List.length_append, List.length_append]
    simp only [List.length_cons]
    rw [List.length_take, List.length_append, List.length_replicate]
    simp

theorem vaLoop_shape :
    ∀ (cands : List (List Char)) (r : String), vaLoop cands = some r →
      ∃ (mid : Char) (tl : List Char),
        r.data = (("26-26-").data) ++ mid :: '-' :: tl ∧
        alnumA mid = true ∧ isLowerB mid = false ∧
        tl.length = 7 ∧ (∀ c ∈ tl, alnumA c = true) ∧ r.length = 15
  | [], r, h => by cases h
  | c :: rest, r, h => by
    unfold vaLoop at h
    by_cases hg : (11 ≤ (filterAlnum c).length && startsWith2626 (filterAlnum c)) = true
    · rw [if_pos hg] at h
      injection h with h
      subst h
      apply mkVaCase_shape
      · rcases Bool.and_eq_true_iff.mp hg with ⟨h1, _⟩
        have := of_decide_eq_true h1
        omega
      · intro c2 hc2
        exact List.of_mem_filter hc2
    · rw [if_neg hg] at h
      exact vaLoop_shape rest r h

/-- C10: for every input string, `_extract_va_case` returns either the
empty string or a string of the exact canonical shape `26-26-` followed by
one uppercase (non-lowercase) alphanumeric character, a hyphen, and exactly
seven alphanumeric characters — fifteen characters overall. -/
theorem extract_va_case_shape (t : String) : vaCaseShape (extract_va_case t) := by
  unfold extract_va_case
  rcases hl : vaLoop (vaFindall t.data) with _ | r
  · rcases hs : vaSearch2 t.data with _ | m
    · exact Or.inl rfl
    · right
      have hok := vaSearch2_spec t.data m hs
      have hfa := filterAlnum_vaParts m hok
      apply mkVaCase_shape
      · rw [hfa]
        simp only [List.length_cons]
        omega
      · intro c2 hc2
        exact List.of_mem_filter hc2
  · right
    exact vaLoop_shape _ r hl

/-! ## Shared pattern fragments -/

/-- `\s+` -/
def wsP (k : K α) : K α := repGU pyWs 1 k

/-- `\s*` -/
def wsS (k : K α) : K α := repGU pyWs 0 k

def isSlashDash (c : Char) : Bool := c = '/' || c = '-'

def isColonEqDash (c : Char) : Bool := c = ':' || c = '=' || c = '-'

def isColonDash (c : Char) : Bool := c = ':' || c = '-'

def notNL (c : Char) : Bool := !(c = '\n')

def notDot (c : Char) : Bool := !(c = '.')

def notNLDot (c : Char) : Bool := !(c = '\n' || c = '.')

def isDigComma (c : Char) : Bool := digitA c || c = ','

/-- Ordered alternation over a list of fragments. -/
def altListK (fs : List (K α → K α)) (k : K α) : K α := fun s =>
  match fs with
  | [] => none
  | f :: rest =>
    match f k s with
    | some r => some r
    | none => altListK rest k s

/-- Position-aware `re.search` threading the previous character. -/
def searchBPosK (m : Option Char → K α) : Nat → Option Char → List Char → Option (Nat × α)
  | i, prev, [] => (m prev []).map (fun r => (i, r))
  | i, prev, s@(c :: rest) =>
    match m prev s with
    | some r => some (i, r)
    | none => searchBPosK m (i + 1) (some c) rest

/-- Case-insensitive list equality (`re.fullmatch` on a literal). -/
def eqListCI : List Char → List Char → Bool
  | [], [] => true
  | a :: x, b :: y => eqCI a b && eqListCI x y
  | _, _ => false

/-! ## `_clean_sentence` (engine lines 73–96) -/

/-- `re.split(r"(?<=\.)\s", s, maxsplit=1)[0]`: cut before the first
whitespace character that follows a period. -/
def splitAfterDot : List Char → List Char
  | [] => []
  | c :: rest =>
    if c = '.' then
      match rest with
      | d :: _ => if pyWs d then [c] else c :: splitAfterDot rest
      | [] => [c]
    else c :: splitAfterDot rest

/-- The boilerplate cut of `_clean_sentence`:
`\b(Respectfully|License or Certification|Certification|Limiting Conditions)\b`. -/
def boilerM (prev : Option Char) : K Unit := fun s =>
  if isWordO prev then none
  else
    altListK [litCIk (("Respectfully").data),
        litCIk (("License or Certification").data),
        litCIk (("Certification").data),
        litCIk (("Limiting Conditions").data)]
      (bdryAfterWord (fun _ => some ())) s

/-- `re.fullmatch(r"(The|This|These|That)\.", s, re.IGNORECASE)`. -/
def isDanglingDet (s : List Char) : Bool :=
  eqListCI s (("The.").data) || eqListCI s (("This.").data) ||
  eqListCI s (("These.").data) || eqListCI s (("That.").data)

/-- Case-insensitive suffix test. -/
def endsWithCI (s w : List Char) : Bool :=
  if w.length ≤ s.length then eqListCI (s.drop (s.length - w.length)) w else false

/-- `re.sub(r"\bthat is the\b\.?$", "", s, re.IGNORECASE)`: drop a trailing
"that is the" (optionally with a final period, preferred greedily), provided
a word boundary precedes it. -/
def stripThatIsThe (s : List Char) : List Char :=
  let w := ("that is the").data
  let wd := w ++ ['.']
  if endsWithCI s wd && !isWordO (s.take (s.length - wd.length)).getLast? then
    s.take (s.length - wd.length)
  else if endsWithCI s w && !isWordO (s.take (s.length - w.length)).getLast? then
    s.take (s.length - w.length)
  else s

/-- `re.search(r"[a-zA-Z]\w", s)`. -/
def hasAlphaWord : List Char → Bool
  | a :: b :: rest => (alphaA a && wordA b) || hasAlphaWord (b :: rest)
  | _ => false

/-- `_clean_sentence` (engine lines 73–96). -/
def clean_sentence (s : List Char) : List Char :=
  if s = [] then []
  else
    let s1 := (pyStrip s).map (fun c => if c = '\n' then ' ' else c)
    let s2 :=
      match searchBPosK boilerM 0 none s1 with
      | some p => s1.take p.1
      | none => s1
    let s3 := pyStrip (splitAfterDot s2)
    let s4 := if isDanglingDet s3 then [] else s3
    let s5 := pyStrip (stripThatIsThe s4)
    let s6 := if 240 < s5.length then dropTrailing pyWs (s5.take 240) else s5
    if s6 ≠ [] && !(s6.getLast? = some '.') && hasAlphaWord s6 then s6 ++ ['.']
    else s6

/-! ## `_sanitize_party_name` and `_extract_client_lender`
(engine lines 231–284) -/

/-- `re.sub(r"\s{2,}", " ", s)`: runs of two or more whitespace characters
become one space; single whitespace characters (including tabs) are kept.
The boolean records that the current run's replacement space was emitted. -/
def cw2Aux : Bool → List Char → List Char
  | _, [] => []
  | true, c :: rest =>
    if pyWs c then cw2Aux true rest else c :: cw2Aux false rest
  | false, c :: rest =>
    if pyWs c then
      match rest with
      | d :: _ => if pyWs d then ' ' :: cw2Aux true rest else c :: cw2Aux false rest
      | [] => [c]
    else c :: cw2Aux false rest

def collapseWs2 (s : List Char) : List Char := cw2Aux false s

/-- The strip set of `s.strip(" :;-|")`. -/
def stripSetChars (c : Char) : Bool :=
  c = ' ' || c = ':' || c = ';' || c = '-' || c = '|'

/-- The `bads` list of `_sanitize_party_name`. -/
def sanitizeBads : List String :=
  [("SUMMARY OF SALIENT FEATURES"), ("SUMMARY"), ("BORROWER"), ("CLIENT"),
    ("LENDER"), ("Property Location"), ("Opinion of Value"), ("Prepared By")]

/-- `_sanitize_party_name` (engine lines 231–244). -/
def sanitize_party_name (s : List Char) : List Char :=
  let s1 := dropTrailing stripSetChars (s.dropWhile stripSetChars)
  let s2 :=
    match orO (stripCI (("Client").data) s1) (stripCI (("Lender").data) s1) with
    | some r => pyStrip ((dropOptColon (r.dropWhile pyWs)).dropWhile pyWs)
    | none => pyStrip s1
  let s3 := collapseWs2 s2
  if sanitizeBads.any (fun b => containsSub (s3.map lowerA) (b.data.map lowerA))
  then [] else s3

/-- Split a character list on newlines. -/
def splitNlL : List Char → List (List Char)
  | [] => [[]]
  | c :: rest =>
    if c = '\n' then [] :: splitNlL rest
    else
      match splitNlL rest with
      | h :: t => (c :: h) :: t
      | [] => [[c]]

/-- Python `str.splitlines` restricted to `\n` separators (the engine's
normalized text contains no other line terminators). -/
def pySplitlines (s : List Char) : List (List Char) :=
  if s = [] then []
  else splitNlL (if s.getLast? = some '\n' then s.dropLast else s)

/-- `Borrower\s*:\s*[^\n]+\n?\s*Lender\s*:\s*([^\n]{2,160})`. -/
def clP0 : K (List Char) :=
  litCIk (("Borrower").data) (wsS (litCSk ([':']) (wsS (
    repGU notNL 1 (optK (fun k2 => clsK (fun c => c = '\n') k2) (wsS (
      litCIk (("Lender").data) (wsS (litCSk ([':']) (wsS (
        grabK (fun k2 => repG notNL 2 160 k2)
          (fun cap => fun _ => some cap))))))))))))

/-- `(?:Lender\s*/\s*Client|Client\s*/\s*Lender)\s*[:\-]?\s*([^\n]{2,160})`,
returning the capture and the rest after the match. -/
def clP1 : K (List Char × List Char) :=
  altK (fun k2 => litCIk (("Lender").data)
          (wsS (litCSk (['/']) (wsS (litCIk (("Client").data) k2)))))
       (fun k2 => litCIk (("Client").data)
          (wsS (litCSk (['/']) (wsS (litCIk (("Lender").data) k2)))))
    (wsS (optK (fun k2 => clsK isColonDash k2) (wsS
      (grabK (fun k2 => repG notNL 2 160 k2)
        (fun cap => fun r => some (cap, r))))))

/-- `\bClient\s*[:\-]\s*([^\n]{2,160})`. -/
def clP2 (prev : Option Char) : K (List Char × List Char) := fun s =>
  if isWordO prev then none
  else litCIk (("Client").data) (wsS (clsK isColonDash (wsS
    (grabK (fun k2 => repG notNL 2 160 k2)
      (fun cap => fun r => some (cap, r)))))) s

/-- `\bLender\s*[:\-]\s*([^\n]{2,160})`. -/
def clP3 (prev : Option Char) : K (List Char × List Char) := fun s =>
  if isWordO prev then none
  else litCIk (("Lender").data) (wsS (clsK isColonDash (wsS
    (grabK (fun k2 => repG notNL 2 160 k2)
      (fun cap => fun r => some (cap, r)))))) s

/-- `Lender[^\n]{0,200}\n([^\n]{3,120})`. -/
def clP4 : K (List Char) :=
  litCIk (("Lender").data) (repG notNL 0 200 (clsK (fun c => c = '\n')
    (grabK (fun k2 => repG notNL 3 120 k2) (fun cap => fun _ => some cap))))

/-- First non-empty sanitized line (the `for line in tail.splitlines()`
fallback). -/
def firstSanitized : List (List Char) → Option (List Char)
  | [] => none
  | l :: rest =>
    let c := sanitize_party_name l
    if c = [] then firstSanitized rest else some c

/-- Handle one of the three inline patterns: sanitized capture if non-empty,
otherwise the first non-empty sanitized line of the next 200 characters. -/
def clAfter (res : Option (List Char × List Char)) : Option (List Char) :=
  match res with
  | none => none
  | some (cap, rest) =>
    let cand := sanitize_party_name cap
    if cand ≠ [] then some cand
    else firstSanitized (pySplitlines (rest.take 200))

/-- `_extract_client_lender` (engine lines 246–284). -/
def extract_client_lender (t : List Char) : List Char :=
  let r0 :=
    match searchK clP0 t with
    | some cap =>
      let cand := sanitize_party_name cap
      if cand = [] then none else some cand
    | none => none
  match r0 with
  | some c => c
  | none =>
    match clAfter (searchK clP1 t) with
    | some c => c
    | none =>
      match clAfter (searchBK clP2 none t) with
      | some c => c
      | none =>
        match clAfter (searchBK clP3 none t) with
        | some c => c
        | none =>
          match searchK clP4 t with
          | some cap => sanitize_party_name cap
          | none => []

/-! ## `_extract_rights_appraised` (engine lines 286–307) -/

/-- `(Rights\s+Appraised|Property\s+Rights\s+Appraised)[^\n]{0,200}` —
`group(0)`. -/
def rightsBlockM : K (List Char) :=
  grabK (fun k2 =>
      altK (fun k3 => litCIk (("Rights").data) (wsP (litCIk (("Appraised").data) k3)))
           (fun k3 => litCIk (("Property").data) (wsP (litCIk (("Rights").data)
              (wsP (litCIk (("Appraised").data) k3)))))
        (repG notNL 0 200 k2))
    (fun cap => fun _ => some cap)

def rightsBlock (t : List Char) : List Char :=
  match searchK rightsBlockM t with
  | some b => b
  | none => []

/-- The checkbox/tick class `(☒|☑|✔|■|●|◉|X)` (the `X` is caught
case-insensitively). -/
def isTick (c : Char) : Bool :=
  c = '☒' || c = '☑' || c = '✔' || c = '■' || c = '●' || c = '◉' || eqCI c 'X'

/-- `picked(opt)`: `re.search(rf"(ticks)\s*{opt}|{opt}\s*(ticks)", block, I)`. -/
def pickedIn (block : List Char) (opt : String) : Bool :=
  (searchK (altK (fun k2 => clsK isTick (wsS (litCIk opt.data k2)))
                 (fun k2 => litCIk opt.data (wsS (clsK isTick k2)))
     (fun r => some r)) block).isSome

/-- `\b(Fee\s+Simple|Leasehold)\b` — `group(1)`. -/
def feeLeaseM (prev : Option Char) : K (List Char) := fun s =>
  if isWordO prev then none
  else grabK (fun k2 =>
      altK (fun k3 => litCIk (("Fee").data) (wsP (litCIk (("Simple").data) k3)))
           (fun k3 => litCIk (("Leasehold").data) k3)
        (bdryAfterWord k2))
    (fun cap => fun _ => some cap) s

/-- Python `str.title` on ASCII letters. -/
def pyTitleAux : Bool → List Char → List Char
  | _, [] => []
  | prevAlpha, c :: rest =>
    if alphaA c then
      (if prevAlpha then lowerA c else upperA c) :: pyTitleAux true rest
    else c :: pyTitleAux false rest

def pyTitle (s : List Char) : List Char := pyTitleAux false s

/-- `_extract_rights_appraised` (engine lines 286–307). -/
def extract_rights_appraised (t : List Char) : List Char :=
  let block := rightsBlock t
  if pickedIn block ("Fee Simple") then ("Fee Simple").data
  else if pickedIn block ("Leasehold") then ("Leasehold").data
  else
    match searchBK feeLeaseM none (if block = [] then t else block) with
    | some g => pyTitle g
    | none => []

/-! ## `_extract_intended_use` (engine lines 309–319) -/

/-- `\bINTENDED\s+USE\s*:\s*([^\n]{2,240})`. -/
def iuP1 (prev : Option Char) : K (List Char) := fun s =>
  if isWordO prev then none
  else litCIk (("INTENDED").data) (wsP (litCIk (("USE").data) (wsS (litCSk ([':'])
    (wsS (grabK (fun k2 => repG notNL 2 240 k2)
      (fun cap => fun _ => some cap))))))) s

/-- `(The\s+intended\s+use[^\.]{0,240}\.)` — `group(1)` is the whole match. -/
def iuP2 : K (List Char) :=
  grabK (fun k2 => litCIk (("The").data) (wsP (litCIk (("intended").data)
      (wsP (litCIk (("use").data) (repG notDot 0 240 (litCSk (['.']) k2)))))))
    (fun cap => fun _ => some cap)

/-- `Intended\s+Use\s*[:\-]\s*([^\n\.]{2,240})(?:\.|\n)`. -/
def iuP3 : K (List Char) :=
  litCIk (("Intended").data) (wsP (litCIk (("Use").data) (wsS (clsK isColonDash
    (wsS (grabK (fun k2 => repG notNLDot 2 240 k2)
      (fun cap => clsK (fun c => c = '.' || c = '\n') (fun _ => some cap))))))))

/-- `_extract_intended_use` (engine lines 309–319); note the fixed default
`"Mortgage Lending."` when no pattern matches. -/
def extract_intended_use (t : List Char) : List Char :=
  match searchBK iuP1 none t with
  | some g => clean_sentence g
  | none =>
    match searchK iuP2 t with
    | some g => clean_sentence g
    | none =>
      match searchK iuP3 t with
      | some g => clean_sentence g
      | none => ("Mortgage Lending.").data

/-! ## Effective date, appraiser, purpose, assignment, value, form type,
VA indicators (inside `extract_metadata`, engine lines 346–465) -/

/-- `\d{1,2}[\x2F-]\d{1,2}[\x2F-]\d{2,4}`. -/
def dateNumFrag (k : K α) : K α :=
  repG digitA 1 2 (clsK isSlashDash (repG digitA 1 2 (clsK isSlashDash
    (repG digitA 2 4 k))))

/-- `(Effective\s+Date|Report\s+Effective\s+Date|Date\s+of\s+Appraised\s+Value)`. -/
def effLabelFrag (k : K α) : K α :=
  alt3K
    (fun k2 => litCIk (("Effective").data) (wsP (litCIk (("Date").data) k2)))
    (fun k2 => litCIk (("Report").data) (wsP (litCIk (("Effective").data)
      (wsP (litCIk (("Date").data) k2)))))
    (fun k2 => litCIk (("Date").data) (wsP (litCIk (("of").data)
      (wsP (litCIk (("Appraised").data) (wsP (litCIk (("Value").data) k2)))))))
    k

/-- `(labels)\s*[:=\-]?\s*(\d{1,2}[\x2F-]\d{1,2}[\x2F-]\d{2,4})` — `group(2)`. -/
def effP1 : K (List Char) :=
  effLabelFrag (wsS (optK (fun k2 => clsK isColonEqDash k2)
    (wsS (grabK dateNumFrag (fun cap => fun _ => some cap)))))

/-- `\bas of\s+(\d{1,2}[\x2F-]\d{1,2}[\x2F-]\d{2,4})`. -/
def effP2 (prev : Option Char) : K (List Char) := fun s =>
  if isWordO prev then none
  else litCIk (("as of").data)
    (wsP (grabK dateNumFrag (fun cap => fun _ => some cap))) s

def monthNames : List String :=
  [("January"), ("February"), ("March"), ("April"), ("May"), ("June"),
    ("July"), ("August"), ("September"), ("October"), ("November"),
    ("December")]

/-- `(January|...|December)` -/
def monthFrag (k : K α) : K α :=
  altListK (monthNames.map (fun w => litCIk w.data)) k

/-- `\b(Month)\s+\d{1,2},\s*\d{4}\b` — `group(0)`. -/
def effP3 (prev : Option Char) : K (List Char) := fun s =>
  if isWordO prev then none
  else grabK (fun k2 => monthFrag (wsP (repG digitA 1 2 (litCSk ([','])
      (wsS (repG digitA 4 4 (bdryAfterWord k2)))))))
    (fun cap => fun _ => some cap) s

/-- The effective-date extraction of `extract_metadata`
(engine lines 362–373): the matched date text is stored verbatim. -/
def extractEffectiveDate (t : List Char) : List Char :=
  match searchK effP1 t with
  | some d => d
  | none =>
    match searchBK effP2 none t with
    | some d => d
    | none =>
      match searchBK effP3 none t with
      | some d => d
      | none => []

/-- `[\w'\-]` (name characters). -/
def isNameChar (c : Char) : Bool := wordA c || c = '\'' || c = '-'

/-- `(Appraiser|Prepared\s+By)\s*[:=\-]?\s*([A-Z][\w'\-]+(?:\s+[A-Z][\w'\-]+){0,3})`
with `re.IGNORECASE` (so `[A-Z]` matches any letter) — `group(2)`. -/
def apprM : K (List Char) :=
  altK (fun k2 => litCIk (("Appraiser").data) k2)
       (fun k2 => litCIk (("Prepared").data) (wsP (litCIk (("By").data) k2)))
    (wsS (optK (fun k2 => clsK isColonEqDash k2)
      (wsS (grabK (fun k2 => clsK alphaA (repGU isNameChar 1
          (repUpTo (fun k3 => wsP (clsK alphaA (repGU isNameChar 1 k3))) 3 k2)))
        (fun cap => fun _ => some cap)))))

/-- `\bPurpose\b\s*[:=\-]?\s*([^\n\.]{0,240})(?:\.|\n)`. -/
def purpP1 (prev : Option Char) : K (List Char) := fun s =>
  if isWordO prev then none
  else litCIk (("Purpose").data) (bdryAfterWord (wsS (optK (fun k2 => clsK isColonEqDash k2)
    (wsS (grabK (fun k2 => repG notNLDot 0 240 k2)
      (fun cap => clsK (fun c => c = '.' || c = '\n') (fun _ => some cap))))))) s

/-- `(?:The\s+purpose\s+of\s+this\s+appraisal[^\.]{0,240}\.)` — `group(0)`. -/
def purpP2 : K (List Char) :=
  grabK (fun k2 => litCIk (("The").data) (wsP (litCIk (("purpose").data)
      (wsP (litCIk (("of").data) (wsP (litCIk (("this").data)
        (wsP (litCIk (("appraisal").data)
          (repG notDot 0 240 (litCSk (['.']) k2)))))))))))
    (fun cap => fun _ => some cap)

/-- The purpose extraction of `extract_metadata` (engine lines 387–393). -/
def extract_purpose (t : List Char) : List Char :=
  match searchBK purpP1 none t with
  | some g => clean_sentence g
  | none =>
    match searchK purpP2 t with
    | some g => clean_sentence g
    | none => []

/-- `Assignment\s*Type[^\n]{0,200}` — `group(0)`. -/
def assignLineM : K (List Char) :=
  grabK (fun k2 => litCIk (("Assignment").data) (wsS (litCIk (("Type").data)
      (repG notNL 0 200 k2))))
    (fun cap => fun _ => some cap)

def assignLine (t : List Char) : List Char :=
  match searchK assignLineM t with
  | some l => l
  | none => []

/-- `Purchase\s*Transaction` / `Refinance\s*Transaction` in the assignment
line. -/
def hasTwoWordsWsS (l : List Char) (a b : String) : Bool :=
  (searchK (litCIk a.data (wsS (litCIk b.data (fun r => some r)))) l).isSome

/-- `\bOther\b`. -/
def hasOtherWord (l : List Char) : Bool :=
  (searchBK (fun prev s =>
      if isWordO prev then none
      else litCIk (("Other").data) (bdryAfterWord (fun r => some r)) s)
    none l).isSome

/-- The assignment-type extraction of `extract_metadata`
(engine lines 395–416). -/
def extract_assignment (t : List Char) : List Char :=
  let line := assignLine t
  if pickedIn line ("Purchase Transaction") then ("Purchase Transaction").data
  else if pickedIn line ("Refinance Transaction") then ("Refinance Transaction").data
  else if pickedIn line ("Other") then ("Other").data
  else if hasTwoWordsWsS line ("Purchase") ("Transaction") then ("Purchase Transaction").data
  else if hasTwoWordsWsS line ("Refinance") ("Transaction") then ("Refinance Transaction").data
  else if hasOtherWord line then ("Other").data
  else []

/-- `[\d,]+(?:\.\d{2})?` — the money capture. -/
def moneyCap : K (List Char) :=
  grabK (fun k2 => repGU isDigComma 1
      (optK (fun k3 => litCSk (['.']) (repG digitA 2 2 k3)) k2))
    (fun cap => fun _ => some cap)

/-- `\s*[:=\-]?\s*\$?\s*` then the money capture. -/
def valueTail : K (List Char) :=
  wsS (optK (fun k2 => clsK isColonEqDash k2)
    (wsS (optK (fun k2 => litCSk (['$']) k2) (wsS moneyCap))))

/-- `\(As[-\s]?Is\)` -/
def asIsParenFrag (k : K α) : K α :=
  litCSk (['(']) (litCIk (("As").data) (optK (fun k2 => clsK isSepSpDash k2)
    (litCIk (("Is").data) (litCSk ([')']) k))))

/-- The eleven value-conclusion label fragments, in source order
(engine lines 422–434). -/
def valueLabels : List (K (List Char) → K (List Char)) :=
  [fun k => litCIk (("Final").data) (wsP (litCIk (("Estimate").data)
     (wsP (litCIk (("of").data) (wsP (litCIk (("Value").data) k)))))),
   fun k => litCIk (("Indicated").data) (wsP (litCIk (("Value").data)
     (wsP (litCIk (("by").data) (wsP (litCIk (("Sales").data)
       (wsP (litCIk (("Comparison").data) (wsP (litCIk (("Approach").data) k)))))))))),
   fun k => litCIk (("Indicated").data) (wsP (litCIk (("Value").data)
     (wsP (litCIk (("by:").data) (wsS (litCIk (("Sales").data)
       (wsP (litCIk (("Comparison").data) (wsP (litCIk (("Approach").data) k)))))))))),
   fun k => litCIk (("Opinion").data) (wsP (litCIk (("of").data)
     (wsP (litCIk (("Value").data) k)))),
   fun k => litCIk (("Value").data) (wsS (litCIk (("Conclusion").data) k)),
   fun k => litCIk (("Final").data) (wsP (litCIk (("Estimate").data)
     (wsP (litCIk (("of").data) (wsP (litCIk (("Value").data)
       (wsS (optK (fun k2 => litCSk (['$']) k2) k)))))))),
   fun k => litCIk (("Value").data) (wsS (asIsParenFrag k)),
   fun k => litCIk (("Appraised").data) (wsP (litCIk (("Value").data)
     (wsS (asIsParenFrag k)))),
   fun k => litCIk (("As").data) (optK (fun k2 => clsK isSepSpDash k2)
     (litCIk (("Is").data) (wsP (litCIk (("Value").data) k)))),
   fun k => litCIk (("Final").data) (wsP (litCIk (("Value").data) k)),
   fun k => litCIk (("Appraised").data) (wsP (litCIk (("Value").data) k))]

/-- The value-conclusion loop of `extract_metadata` (engine lines 421–438):
first label whose pattern matches wins; the value is `"$" + group(1)`. -/
def firstLabelHit : List (K (List Char) → K (List Char)) → List Char → Option (List Char)
  | [], _ => none
  | f :: rest, t =>
    match searchK (f valueTail) t with
    | some cap => some cap
    | none => firstLabelHit rest t

def extract_value_conclusion (t : List Char) : List Char :=
  match firstLabelHit valueLabels t with
  | some cap => '$' :: cap
  | none => []

/-- `FORM_KEYWORDS` (engine lines 225–229). -/
def formKeywords : List String :=
  [("1004"), ("2055"), ("1073"), ("1075"), ("1025"), ("1004C"), ("1004D"),
    ("2090"), ("2095"), ("UNIFORM RESIDENTIAL APPRAISAL REPORT"), ("URAR"),
    ("FNMA"), ("FHLMC"), ("GP RESIDENTIAL"), ("GP LAND"), ("GP CONDO"),
    ("GENERAL PURPOSE RESIDENTIAL")]

/-- `\b{re.escape(kw)}\b` with `re.IGNORECASE`. -/
def kwSearch (t : List Char) (kw : String) : Bool :=
  (searchBK (fun prev s =>
      if isWordO prev then none
      else litCIk kw.data (bdryAfterWord (fun r => some r)) s)
    none t).isSome

/-- `\bUniform\s+Residential\s+Appraisal\s+Report\b`. -/
def urarSearch (t : List Char) : Bool :=
  (searchBK (fun prev s =>
      if isWordO prev then none
      else litCIk (("Uniform").data) (wsP (litCIk (("Residential").data)
        (wsP (litCIk (("Appraisal").data) (wsP (litCIk (("Report").data)
          (bdryAfterWord (fun r => some r)))))))) s)
    none t).isSome

/-- The keyword loop of the form-type extraction (engine lines 443–447). -/
def formFromKw : List String → List Char → List Char
  | [], _ => []
  | kw :: rest, t =>
    if kwSearch t kw then
      if kw = ("1004") || kw = ("UNIFORM RESIDENTIAL APPRAISAL REPORT") ||
          kw = ("URAR") then (("URAR (1004)")).data
      else kw.data
    else formFromKw rest t

/-- The form-type extraction of `extract_metadata` (engine lines 441–447). -/
def extract_form_type (t : List Char) : List Char :=
  if urarSearch t then (("URAR (1004)")).data
  else formFromKw formKeywords t

/-- A `\bA\s+B\b`-style marker search (both boundaries). -/
def markerSearch2 (t : List Char) (a b : String) : Bool :=
  (searchBK (fun prev s =>
      if isWordO prev then none
      else litCIk a.data (wsP (litCIk b.data (bdryAfterWord (fun r => some r)))) s)
    none t).isSome

/-- A single-word `\bW\b` marker search. -/
def markerSearch1 (t : List Char) (w : String) : Bool :=
  (searchBK (fun prev s =>
      if isWordO prev then none
      else litCIk w.data (bdryAfterWord (fun r => some r)) s)
    none t).isSome

/-- `\bDepartment\s+of\s+Veterans\s+Affairs\b`. -/
def deptVetSearch (t : List Char) : Bool :=
  (searchBK (fun prev s =>
      if isWordO prev then none
      else litCIk (("Department").data) (wsP (litCIk (("of").data)
        (wsP (litCIk (("Veterans").data) (wsP (litCIk (("Affairs").data)
          (bdryAfterWord (fun r => some r)))))))) s)
    none t).isSome

/-- The `va_hits` disjunction of `extract_metadata` (engine lines 455–463). -/
def vaHits (t : List Char) : Bool :=
  deptVetSearch t || markerSearch2 t ("VA") ("Loan") ||
  markerSearch2 t ("VA") ("Case") || markerSearch2 t ("VA") ("Appraisal") ||
  markerSearch1 t ("LAPP") || markerSearch1 t ("TAS")

/-- The metadata dictionary of `extract_metadata` (engine lines 346–465). -/
structure Metadata where
  file_name : String
  effective_date : String
  form_type : String
  appraiser_name : String
  client : String
  intended_use : String
  purpose : String
  assignment_type : String
  rights_appraised : String
  value_conclusion : String
  is_va_loan : String
  va_case_number : String
deriving DecidableEq

/-- `extract_metadata` (engine lines 346–465). -/
def extract_metadata (t : String) : Metadata :=
  let text := t.data
  let vacase := extract_va_case t
  { file_name := ("[Not found in file]"),
    effective_date := String.mk (extractEffectiveDate text),
    form_type := String.mk (extract_form_type text),
    appraiser_name := String.mk
      (match searchK apprM text with
       | some g => g
       | none => []),
    client := String.mk (extract_client_lender text),
    intended_use := String.mk (extract_intended_use text),
    purpose := String.mk (extract_purpose text),
    assignment_type := String.mk (extract_assignment text),
    rights_appraised := String.mk (extract_rights_appraised text),
    value_conclusion := String.mk (extract_value_conclusion text),
    is_va_loan := if vacase ≠ ("") then ("Yes")
      else if vaHits text then ("Yes") else ("No"),
    va_case_number := vacase }

/-! ## `check_flags` and `summarize_top_flags` (engine lines 591–610) -/

def m1004Msg : String := ("Missing 1004MC addendum.")

def vaMprMsg : String := ("No VA MPR references found despite VA loan indicators.")

def sigMsg : String := ("Signature and date inconsistencies noted.")

/-- `\b(1004MC|MARKET\s+CONDITIONS\s+ADDENDUM)\b`. -/
def hasMc (t : List Char) : Bool :=
  (searchBK (fun prev s =>
      if isWordO prev then none
      else altK (fun k2 => litCIk (("1004MC").data) k2)
             (fun k2 => litCIk (("MARKET").data) (wsP (litCIk (("CONDITIONS").data)
               (wsP (litCIk (("ADDENDUM").data) k2)))))
        (bdryAfterWord (fun r => some r)) s)
    none t).isSome

/-- `\b(MINIMUM\s+PROPERTY\s+REQUIREMENTS|MPR)\b`. -/
def hasMpr (t : List Char) : Bool :=
  (searchBK (fun prev s =>
      if isWordO prev then none
      else altK (fun k2 => litCIk (("MINIMUM").data) (wsP (litCIk (("PROPERTY").data)
               (wsP (litCIk (("REQUIREMENTS").data) k2)))))
             (fun k2 => litCIk (("MPR").data) k2)
        (bdryAfterWord (fun r => some r)) s)
    none t).isSome

/-- `re.search(r"Signature", text, re.IGNORECASE)`. -/
def hasSignature (t : List Char) : Bool := containsSubCI t (("Signature").data)

/-- `(Signed\s+Date|Signature\s+Date|Report\s+Signed)`. -/
def hasSigDate (t : List Char) : Bool :=
  (searchK (alt3K
      (fun k2 => litCIk (("Signed").data) (wsP (litCIk (("Date").data) k2)))
      (fun k2 => litCIk (("Signature").data) (wsP (litCIk (("Date").data) k2)))
      (fun k2 => litCIk (("Report").data) (wsP (litCIk (("Signed").data) k2)))
    (fun r => some r)) t).isSome

/-- `check_flags` (engine lines 591–607): the three rule messages are
appended in a fixed order. -/
def check_flags (text : List Char) (md : Metadata) : List String :=
  (if !hasMc text then [m1004Msg] else []) ++
  (if md.is_va_loan = ("Yes") && !hasMpr text then [vaMprMsg] else []) ++
  (if hasSignature text && !hasSigDate text then [sigMsg] else [])

/-- `summarize_top_flags` (engine lines 609–610); the engine always calls it
with `k = 3`. -/
def summarize_top_flags (flags : List String) (k : Nat) : List String :=
  flags.take k

/-! ## Engine configuration constants (defaults, engine lines 34–44) -/

def ENGINE_VERSION : String := ("1.6")

def SHOW_FOOTER : Bool := true

def SHOW_VERBOSE_EVIDENCE : Bool := true

def OUTPUT_STYLE : String := ("analyst")

def DISCLAIMER_LINE : String :=
  ("⚠️ Automated audit. Use professional judgment when making final report decisions.")

/-! ## `compose_output_v27` (engine lines 644–683) -/

/-- Python falsy-or on strings. -/
def orDefault (s d : String) : String := if s = ("") then d else s

def secHeader1 : String := ("[SECTION 1] REPORT METADATA SNAPSHOT")

def secHeader2 : String := ("[SECTION 2] SUMMARY OF COMPLIANCE FLAGS")

def secHeader3 : String := ("[SECTION 3] DETAILED FLAGS AND REFERENCES")

def secHeader4 : String := ("[SECTION 4] TOP FLAGS (CONDENSED)")

def secHeader5 : String := ("[SECTION 5] ADDITIONAL NOTES")

/-- The metadata-section lines of `compose_output_v27`. -/
def v27Sec1 (md : Metadata) : List String :=
  [secHeader1,
    ("→ File Name = ") ++ orDefault md.file_name ("[Not found in file]"),
    ("→ Effective Date = ") ++ orDefault md.effective_date ("[Not found]"),
    ("→ Form Type = ") ++ orDefault md.form_type ("[Not found]"),
    ("→ Appraiser Name = ") ++ orDefault md.appraiser_name ("[Not found]"),
    ("→ Intended Use / Client = ") ++ orDefault md.intended_use ("[Not found]") ++
      (" / ") ++ orDefault md.client ("[Not found]"),
    ("→ Is VA Loan = ") ++ orDefault md.is_va_loan ("No")] ++
  (if md.va_case_number ≠ ("") then
    [("→ VA Case Number = ") ++ md.va_case_number]
   else [])

/-- The flag lines of sections 2 and 3 of `compose_output_v27`. -/
def v27FlagLines (flags : List String) (emptyMsg : String) : List String :=
  if flags ≠ [] then flags.map (fun f => ("→ ") ++ f) else [emptyMsg]

/-- The line list built by `compose_output_v27`. -/
def v27Lines (md : Metadata) (flags : List String) : List String :=
  v27Sec1 md ++
  [(""), secHeader2] ++
  v27FlagLines flags ("→ No material compliance flags detected by automated checks.") ++
  [(""), secHeader3] ++
  v27FlagLines flags ("→ None.") ++
  [(""), secHeader4] ++
  v27FlagLines (summarize_top_flags flags 3) ("→ None.") ++
  [(""), secHeader5,
    ("→ Automated extraction powered by Azure Document Intelligence. Manual review recommended.")] ++
  (if SHOW_FOOTER then [(""), ("— Engine v") ++ ENGINE_VERSION] else [])

/-- Python `"\n".join`. -/
def joinNl (L : List String) : String :=
  match L with
  | [] => ("")
  | h :: t => t.foldl (fun acc x => acc ++ ("\n") ++ x) h

/-- `compose_output_v27` (engine lines 644–683). -/
def compose_output_v27 (md : Metadata) (flags : List String) : String :=
  joinNl (v27Lines md flags)

/-! ## `find_evidence`, `_with_evidence`, `gather_core_evidence`
(engine lines 141–161 and 615–639) -/

/-- `re.sub(r"\s+", " ", snip)`: every whitespace run becomes one space. -/
def collapseWsAllAux : Bool → List Char → List Char
  | _, [] => []
  | inRun, c :: rest =>
    if pyWs c then
      if inRun then collapseWsAllAux true rest
      else ' ' :: collapseWsAllAux true rest
    else c :: collapseWsAllAux false rest

def collapseWsAll (s : List Char) : List Char := collapseWsAllAux false s

/-- A pattern made into a span finder on one page. -/
def PatFn := List Char → Option (Nat × Nat)

def mkPat (m : K (List Char)) : PatFn := fun page =>
  (searchPosK m 0 page).map (fun p => (p.1, page.length - p.2.length))

def mkPatB (m : Option Char → K (List Char)) : PatFn := fun page =>
  (searchBPosK m 0 none page).map (fun p => (p.1, page.length - p.2.length))

def firstPatHit : List PatFn → List Char → Option (Nat × Nat)
  | [], _ => none
  | p :: rest, page =>
    match p page with
    | some sp => some sp
    | none => firstPatHit rest page

/-- `find_evidence` (engine lines 141–156).  `toString i` renders the
1-based page number. -/
def findEvidenceAux : Nat → List (List Char) → List PatFn → String
  | _, [], _ => ("")
  | i, page :: rest, pats =>
    match firstPatHit pats page with
    | some sp =>
      let start := sp.1 - 80
      let stop := min page.length (sp.2 + 80)
      let snip := pyStrip (collapseWsAll ((page.drop start).take (stop - start)))
      let snip2 := if 140 < snip.length then snip.take 138 ++ [('…' : Char)] else snip
      ("p.") ++ toString i ++ (": ") ++ String.mk snip2
    | none => findEvidenceAux (i + 1) rest pats

def find_evidence (pages : List (List Char)) (pats : List PatFn) : String :=
  findEvidenceAux 1 pages pats

/-- `_with_evidence` (engine lines 158–161). -/
def withEvidence (line ev : String) : String :=
  if SHOW_VERBOSE_EVIDENCE && ev ≠ ("") then
    line ++ ("  (Evidence: ") ++ ev ++ (")")
  else line

/-- The evidence patterns of `gather_core_evidence` (engine lines 615–639). -/
def isColonWs (c : Char) : Bool := c = ':' || pyWs c

def evValuePats : List PatFn :=
  [mkPat (alt3K
      (fun k2 => litCIk (("Indicated").data) (wsP (litCIk (("Value").data)
        (wsP (litCIk (("by").data) (repGU isColonWs 0 (litCIk (("Sales").data)
          (wsP (litCIk (("Comparison").data) k2)))))))))
      (fun k2 => litCIk (("Appraised").data) (wsP (litCIk (("Value").data) k2)))
      (fun k2 => litCIk (("Final").data) (wsP (litCIk (("Estimate").data)
        (wsP (litCIk (("of").data) (wsP (litCIk (("Value").data) k2)))))))
    (fun r => some r)),
   mkPat (altK
      (fun k2 => litCIk (("Comparable").data) (wsP (litCIk (("Summary").data) k2)))
      (fun k2 => litCIk (("Estimated").data) (wsP (litCIk (("Indicated").data)
        (wsP (litCIk (("Value").data) k2)))))
    (fun r => some r))]

def evEffDatePats : List PatFn :=
  [mkPat (altK
      (fun k2 => litCIk (("Effective").data) (wsP (litCIk (("Date").data) k2)))
      (fun k2 => litCIk (("Date").data) (wsP (litCIk (("of").data)
        (wsP (litCIk (("Appraised").data) (wsP (litCIk (("Value").data) k2)))))))
    (fun r => some r))]

def evRightsPats : List PatFn :=
  [mkPat (alt3K
      (fun k2 => optK (fun k3 => litCIk (("Property").data) (wsP k3))
        (litCIk (("Rights").data) (wsP (litCIk (("Appraised").data) k2))))
      (fun k2 => litCIk (("Fee").data) (wsP (litCIk (("Simple").data) k2)))
      (fun k2 => litCIk (("Leasehold").data) k2)
    (fun r => some r))]

def evClientPats : List PatFn :=
  [mkPat (altK
      (fun k2 => litCIk (("Lender").data) (wsS (litCSk (['/'])
        (wsS (litCIk (("Client").data) k2)))))
      (fun k2 => litCIk (("Client").data) (wsS (litCSk (['/'])
        (wsS (litCIk (("Lender").data) k2)))))
    (wsS (clsK isColonDash (fun r => some r)))),
   mkPatB (fun prev => fun s =>
     if isWordO prev then none
     else litCIk (("Client").data) (wsS (clsK isColonDash (fun r => some r))) s),
   mkPatB (fun prev => fun s =>
     if isWordO prev then none
     else litCIk (("Lender").data) (wsS (clsK isColonDash (fun r => some r))) s)]

def evIntendedPats : List PatFn :=
  [mkPat (altK
      (fun k2 => litCIk (("INTENDED").data) (wsP (litCIk (("USE").data)
        (wsS (litCSk ([':']) k2)))))
      (fun k2 => litCIk (("The").data) (wsP (litCIk (("intended").data)
        (wsP (litCIk (("use").data) k2)))))
    (fun r => some r))]

def isColonHashDash (c : Char) : Bool := c = ':' || c = '#' || c = '-'

def evVaCasePats : List PatFn :=
  [mkPat (litCIk (("VA").data) (wsS (altK
      (fun k2 => litCIk (("Case").data) k2)
      (fun k2 => litCIk (("Loan").data) k2)
    (wsS (optK (fun k2 => altK
        (fun k3 => litCIk (("No").data) (optK (fun k4 => litCSk (['.']) k4) k3))
        (fun k3 => litCIk (("Number").data) k3) k2)
      (wsS (clsK isColonHashDash (fun r => some r))))))))]

/-- The evidence record of `gather_core_evidence`. -/
structure CoreEvidence where
  value : String
  effective_date : String
  rights : String
  client : String
  intended_use : String
  va_case : String

/-- `gather_core_evidence` (engine lines 615–639). -/
def gather_core_evidence (pages : List (List Char)) (md : Metadata) : CoreEvidence :=
  { value := find_evidence pages evValuePats,
    effective_date := find_evidence pages evEffDatePats,
    rights := find_evidence pages evRightsPats,
    client := find_evidence pages evClientPats,
    intended_use := find_evidence pages evIntendedPats,
    va_case := if md.va_case_number ≠ ("") then find_evidence pages evVaCasePats
      else ("") }

/-! ## Numeric helpers for the comparables parsing

Python `float` values are modelled as `Rat`.  The decimal strings the engine
feeds to `float()` are short, so the rational model agrees with the binary
floats on every comparison and formatting the claims exercise; none of the
claims touch these numerics on a matching input. -/

def natOfDigits (s : List Char) : Nat :=
  s.foldl (fun a c => a * 10 + (c.toNat - 48)) 0

/-- Split on a single character (for `"/"` and `"."`). -/
def splitOnChar (ch : Char) : List Char → List (List Char)
  | [] => [[]]
  | c :: rest =>
    if c = ch then [] :: splitOnChar ch rest
    else
      match splitOnChar ch rest with
      | h :: t => (c :: h) :: t
      | [] => [[c]]

/-- CPython `float()` on the digit/dot strings the engine produces:
`"123"`, `"1.5"`, `".5"`, `"1."` parse; `"."`, `"1.2.3"` raise (here:
`none`). -/
def pyFloatParse (s : List Char) : Option Rat :=
  match splitOnChar '.' s with
  | [i] => if i = [] then none else some ((natOfDigits i : Int) : Rat)
  | [i, f] =>
    if i = [] && f = [] then none
    else some (((natOfDigits i : Int) : Rat) +
      ((natOfDigits f : Int) : Rat) / ((10 ^ f.length : Int) : Rat))
  | _ => none

/-- `f"{n:,}"`: decimal digits with thousands separators. -/
def commaGroups : List Char → List Char
  | [] => []
  | s =>
    if s.length ≤ 3 then s
    else commaGroups (s.take (s.length - 3)) ++ ',' :: s.drop (s.length - 3)
termination_by s => s.length
decreasing_by simp_wf; omega

def commaFmt (n : Nat) : String := String.mk (commaGroups (toString n).data)

/-- `f"{x:.2f}"` for the non-negative rationals the engine formats (rounding
half away from zero; no claim exercises a tie). -/
def fmt2f (x : Rat) : String :=
  let c : Int := ((x * 100) + 1 / 2).floor
  let n : Nat := c.toNat
  toString (n / 100) ++ (".") ++
    (if n % 100 < 10 then ("0") ++ toString (n % 100) else toString (n % 100))

/-- Python `int()` on the non-negative floats the engine truncates. -/
def ratTruncNat (x : Rat) : Nat := x.floor.toNat

/-- Python `min`/`max` on a non-empty float list (first element wins ties). -/
def ratMin (h : Rat) (t : List Rat) : Rat :=
  t.foldl (fun acc v => if v < acc then v else acc) h

def ratMax (h : Rat) (t : List Rat) : Rat :=
  t.foldl (fun acc v => if acc < v then v else acc) h

/-- Python `min`/`max` with a key function (first minimal/maximal wins). -/
def minByKey (kv : List Char → Nat) (h : List Char) (t : List (List Char)) : List Char :=
  t.foldl (fun acc v => if kv v < kv acc then v else acc) h

def maxByKey (kv : List Char → Nat) (h : List Char) (t : List (List Char)) : List Char :=
  t.foldl (fun acc v => if kv acc < kv v then v else acc) h

/-- Python `str.replace` (all non-overlapping occurrences, left to right). -/
def replaceAllAux (pat rep : List Char) : Nat → List Char → List Char
  | 0, s => s
  | _ + 1, [] => []
  | f + 1, s@(c :: rest) =>
    match stripCS pat s with
    | some after => rep ++ replaceAllAux pat rep f after
    | none => c :: replaceAllAux pat rep f rest

def replaceAll (s pat rep : List Char) : List Char :=
  if pat = [] then s else replaceAllAux pat rep (s.length + 1) s

/-! ## `parse_subject_basics` (engine lines 468–492) -/

/-- The character preceding the current rest-list, given the match start and
the character before it (for mid-pattern `\b`). -/
def lastConsumed (prev0 : Option Char) (s0 r : List Char) : Option Char :=
  if s0.length = r.length then prev0
  else (s0.take (s0.length - r.length)).getLast?

/-- Mid-pattern `\b` relative to a match start `s0`. -/
def bdryAt (prev0 : Option Char) (s0 : List Char) (k : K α) : K α := fun r =>
  if atBoundary (lastConsumed prev0 s0 r) r then k r else none

def isAddrChar (c : Char) : Bool := wordA c || pyWs c || c = '.' || c = '\'' || c = '-'

def isAlphaWs (c : Char) : Bool := alphaA c || pyWs c

/-- `\b(\d{2,6}\s+[A-Z0-9][\w\s\.'-]+)\s*(?:\n|,)\s*([A-Za-z\s]+),\s*([A-Z]{2})\s*\d{5}`
(with `re.IGNORECASE`); yields the three captures. -/
def subjAddrP1 (prev : Option Char) : K (List Char × List Char × List Char) := fun s =>
  if isWordO prev then none
  else grabK (fun k2 => repG digitA 2 6 (wsP (clsK alnumA (repGU isAddrChar 1 k2))))
    (fun g1 => wsS (clsK (fun c => c = '\n' || c = ',')
      (wsS (grabK (fun k2 => repGU isAlphaWs 1 k2)
        (fun g2 => litCSk ([','])
          (wsS (grabK (fun k2 => repG alphaA 2 2 k2)
            (fun g3 => wsS (repG digitA 5 5
              (fun _ => some (g1, g2, g3))))))))))) s

/-- `Property\s+Address\s*[:\-]?\s*([^\n]+)\n([A-Za-z\s]+),\s*([A-Z]{2})\s*\d{5}`. -/
def subjAddrP2 : K (List Char × List Char × List Char) :=
  litCIk (("Property").data) (wsP (litCIk (("Address").data)
    (wsS (optK (fun k2 => clsK isColonDash k2)
      (wsS (grabK (fun k2 => repGU notNL 1 k2)
        (fun g1 => clsK (fun c => c = '\n')
          (grabK (fun k2 => repGU isAlphaWs 1 k2)
            (fun g2 => litCSk ([','])
              (wsS (grabK (fun k2 => repG alphaA 2 2 k2)
                (fun g3 => wsS (repG digitA 5 5
                  (fun _ => some (g1, g2, g3)))))))))))))))

/-- The five subject-GLA patterns (engine lines 481–487), each yielding its
digit capture. -/
def subjGlaP1 : K (List Char) :=
  altK (fun k2 => litCIk (("Subject").data) k2)
       (fun k2 => litCIk (("Subj").data) (optK (fun k3 => litCSk (['.']) k3) k2))
    (wsS (altK (fun k2 => litCIk (("GLA").data) k2)
          (fun k2 => litCIk (("Gross").data) (wsP (litCIk (("Living").data)
            (wsP (litCIk (("Area").data) k2)))))
      (wsS (optK (fun k2 => clsK isColonEqDash k2)
        (wsS (grabK (fun k2 => repGU isDigComma 1 k2)
          (fun cap => fun _ => some cap)))))))

def notDigit (c : Char) : Bool := !digitA c

def subjGlaP2 (prev : Option Char) : K (List Char) := fun s =>
  (altK (fun k2 => litCIk (("Above-Grade").data) k2)
        (fun k2 => litCIk (("Above").data) (wsP (litCIk (("grade").data) k2)))
    (repG notDigit 0 40 (bdryAt prev s
      (grabK (fun k2 => repG isDigComma 3 s.length k2)
        (fun cap => bdryAt prev s (fun _ => some cap)))))) s

def anyChar (_ : Char) : Bool := true

def subjGlaP3 (prev : Option Char) : K (List Char) := fun s =>
  (litCIk (("Finished").data) (wsP (litCIk (("area").data) (wsP (litCIk (("above").data)
    (wsP (litCIk (("grade").data)
      (repLU anyChar 0 (litCIk (("Square").data) (wsP (litCIk (("Feet").data)
        (repLU anyChar 0 (clsK (fun c => c = '\n')
          (repLU anyChar 0 (bdryAt prev s
            (grabK (fun k2 => repG isDigComma 3 s.length k2)
              (fun cap => bdryAt prev s (fun _ => some cap)))))))))))))))))) s

/-- `(?:\(sf\)|\(sq\s*ft\)|\(sqft\))` -/
def glaParenFrag (k : K α) : K α :=
  alt3K
    (fun k2 => litCSk (['(']) (litCIk (("sf").data) (litCSk ([')']) k2)))
    (fun k2 => litCSk (['(']) (litCIk (("sq").data) (wsS (litCIk (("ft").data)
      (litCSk ([')']) k2)))))
    (fun k2 => litCSk (['(']) (litCIk (("sqft").data) (litCSk ([')']) k2)))
    k

def subjGlaP4 (prev : Option Char) : K (List Char) := fun s =>
  if isWordO prev then none
  else (litCIk (("GLA").data) (wsS (optK (fun k2 => glaParenFrag k2)
    (bdryAt prev s (repG notDigit 0 10
      (grabK (fun k2 => repG isDigComma 3 s.length k2)
        (fun cap => fun _ => some cap))))))) s

def subjGlaP5 (prev : Option Char) : K (List Char) := fun s =>
  if isWordO prev then none
  else (litCIk (("Gross").data) (wsP (litCIk (("Living").data) (wsP (litCIk (("Area").data)
    (bdryAfterWord (repG notDigit 0 10
      (grabK (fun k2 => repG isDigComma 3 s.length k2)
        (fun cap => fun _ => some cap))))))))) s

/-- The result record of `parse_subject_basics`. -/
structure SubjectBasics where
  subject_gla : List Char
  subject_address : List Char

/-- `parse_subject_basics` (engine lines 468–492). -/
def parse_subject_basics (t : List Char) : SubjectBasics :=
  let addr :=
    match searchBK subjAddrP1 none t with
    | some g =>
      pyStrip g.1 ++ (", ").data ++ pyStrip g.2.1 ++ (", ").data ++ pyStrip g.2.2
    | none =>
      match searchK subjAddrP2 t with
      | some g =>
        pyStrip g.1 ++ (", ").data ++ pyStrip g.2.1 ++ (", ").data ++ pyStrip g.2.2
      | none => []
  let gla :=
    match searchK subjGlaP1 t with
    | some cap => replaceAll cap ([',']) []
    | none =>
      match searchBK subjGlaP2 none t with
      | some cap => replaceAll cap ([',']) []
      | none =>
        match searchBK subjGlaP3 none t with
        | some cap => replaceAll cap ([',']) []
        | none =>
          match searchBK subjGlaP4 none t with
          | some cap => replaceAll cap ([',']) []
          | none =>
            match searchBK subjGlaP5 none t with
            | some cap => replaceAll cap ([',']) []
            | none => []
  { subject_gla := gla, subject_address := addr }

/-! ## `parse_comps_quick` (engine lines 494–519) -/

def isDigDot (c : Char) : Bool := digitA c || c = '.'

def isNSEW (c : Char) : Bool := eqCI c 'N' || eqCI c 'S' || eqCI c 'E' || eqCI c 'W'

/-- `Comp\s*#?\s*\d[^\n]{0,120}?(?:GLA(?:\s*\(sf\)|\s*\(sq\s*ft\)|\s*\(sqft\))?|Gross\s+Living\s+Area)[^\d]{0,10}([\d,]{3,})`. -/
def compGlaM : List Char → Option (List Char × List Char) := fun s =>
  (litCIk (("Comp").data) (wsS (optK (fun k2 => litCSk (['#']) k2) (wsS (clsK digitA
    (repL notNL 0 120 (altK
        (fun k2 => litCIk (("GLA").data) (optK (fun k3 => alt3K
            (fun k4 => wsS (litCSk (['(']) (litCIk (("sf").data) (litCSk ([')']) k4))))
            (fun k4 => wsS (litCSk (['(']) (litCIk (("sq").data)
              (wsS (litCIk (("ft").data) (litCSk ([')']) k4))))))
            (fun k4 => wsS (litCSk (['(']) (litCIk (("sqft").data) (litCSk ([')']) k4))))
            k3) k2))
        (fun k2 => litCIk (("Gross").data) (wsP (litCIk (("Living").data)
          (wsP (litCIk (("Area").data) k2)))))
      (repG notDigit 0 10
        (grabK (fun k2 => repG isDigComma 3 s.length k2)
          (fun cap => fun r => some (cap, r))))))))))) s

/-- `\b([\d\.]+)\s*(?:miles|mi\.?)\b(?:\s*[NSEW]{1,2})?`. -/
def milesM (prev : Option Char) : List Char → Option (List Char × List Char) := fun s =>
  if atBoundary prev s then
    (grabK (fun k2 => repGU isDigDot 1 k2)
      (fun cap => wsS (altK
          (fun k2 => litCIk (("miles").data) k2)
          (fun k2 => litCIk (("mi").data) (optK (fun k3 => litCSk (['.']) k3) k2))
        (bdryAt prev s (optK (fun k2 => wsS (repG isNSEW 1 2 k2))
          (fun r => some (cap, r))))))) s
  else none

/-- `\bDOM[:\s]+(\d{1,3})\b|\bDays\s+on\s+Market[:\s]+(\d{1,3})\b`; the two
captures mirror the tuple `re.findall` returns. -/
def domM (prev : Option Char) :
    List Char → Option ((Option (List Char) × Option (List Char)) × List Char) := fun s =>
  if isWordO prev then none
  else
    match (litCIk (("DOM").data) (repGU isColonWs 1
        (grabK (fun k2 => repG digitA 1 3 k2)
          (fun cap => bdryAt prev s (fun r => some (cap, r)))))) s with
    | some p => some ((some p.1, none), p.2)
    | none =>
      match (litCIk (("Days").data) (wsP (litCIk (("on").data) (wsP (litCIk (("Market").data)
          (repGU isColonWs 1
            (grabK (fun k2 => repG digitA 1 3 k2)
              (fun cap => bdryAt prev s (fun r => some (cap, r)))))))))) s with
      | some p => some ((none, some p.1), p.2)
      | none => none

/-- `m[0] or m[1]` on a tuple of optionally-matched groups. -/
def orGroup (a b : Option (List Char)) : List Char :=
  match a with
  | some x => if x = [] then (b.getD []) else x
  | none => b.getD []

structure CompsQuick where
  comp_gla : List Rat
  miles : List Rat
  dom : List Rat

/-- `parse_comps_quick` (engine lines 494–519); unparseable floats are
skipped, like the `try/except: pass` in the source. -/
def parse_comps_quick (t : List Char) : CompsQuick :=
  { comp_gla := (findallK compGlaM (t.length + 1) t).filterMap
      (fun c => pyFloatParse (replaceAll c ([',']) [])),
    miles := (findallBK milesM (t.length + 1) none t).filterMap pyFloatParse,
    dom := (findallBK domM (t.length + 1) none t).filterMap
      (fun p => pyFloatParse (orGroup p.1 p.2)) }

/-! ## `summarize_comps_ranges` (engine lines 521–549) -/

/-- `\$\s*[\d,]+(?:\.\d{2})?\s*(?:-|to)\s*\$\s*[\d,]+(?:\.\d{2})?` — `group(0)`. -/
def adjRangeM : K (List Char) :=
  grabK (fun k2 => litCSk (['$']) (wsS (repGU isDigComma 1
    (optK (fun k3 => litCSk (['.']) (repG digitA 2 2 k3))
      (wsS (altK (fun k3 => litCSk (['-']) k3) (fun k3 => litCIk (("to").data) k3)
        (wsS (litCSk (['$']) (wsS (repGU isDigComma 1
          (optK (fun k3 => litCSk (['.']) (repG digitA 2 2 k3)) k2)))))))))))
    (fun cap => fun _ => some cap)

/-- `s(\d{1,2}/\d{2})\s*;\s*c(\d{1,2}/\d{2})`. -/
def saleDateM : List Char → Option ((List Char × List Char) × List Char) := fun s =>
  (litCIk (("s").data) (grabK (fun k2 => repG digitA 1 2 (litCSk (['/'])
      (repG digitA 2 2 k2)))
    (fun g1 => wsS (litCSk ([';']) (wsS (litCIk (("c").data)
      (grabK (fun k2 => repG digitA 1 2 (litCSk (['/']) (repG digitA 2 2 k2)))
        (fun g2 => fun r => some ((g1, g2), r))))))))) s

def zfill2 (s : List Char) : List Char := if s.length < 2 then '0' :: s else s

/-- `kv(v)`: `int(f"20{yy}{mm.zfill(2)}")`. -/
def saleKv (v : List Char) : Nat :=
  match splitOnChar '/' v with
  | [mm, yy] => natOfDigits ((("20").data) ++ yy ++ zfill2 mm)
  | _ => 0

/-- `\b(\d{1,2}/\d{4})\s*(?:-|–)\s*(\d{1,2}/\d{4})\b` (no flags). -/
def saleRange2M (prev : Option Char) : K (List Char × List Char) := fun s =>
  if isWordO prev then none
  else grabK (fun k2 => repG digitA 1 2 (litCSk (['/']) (repG digitA 4 4 k2)))
    (fun g1 => wsS (clsK (fun c => c = '-' || c = '–')
      (wsS (grabK (fun k2 => repG digitA 1 2 (litCSk (['/']) (repG digitA 4 4 k2)))
        (fun g2 => bdryAt prev s (fun _ => some (g1, g2))))))) s

/-- `\bCOMPARABLE\s+SALE\s+#\s*\d\b`. -/
def compRowM (prev : Option Char) : List Char → Option (Unit × List Char) := fun s =>
  if isWordO prev then none
  else (litCIk (("COMPARABLE").data) (wsP (litCIk (("SALE").data) (wsP (litCSk (['#'])
    (wsS (clsK digitA (bdryAfterWord (fun r => some ((), r)))))))))) s

structure CompSummary where
  comps_used : List Char
  adj_range : List Char
  sale_date_range : List Char

/-- `summarize_comps_ranges` (engine lines 521–549). -/
def summarize_comps_ranges (t : List Char) : CompSummary :=
  let adj :=
    match searchK adjRangeM t with
    | some g0 => replaceAll g0 ((" to ").data) ((" - ").data)
    | none => []
  let pairs := findallK saleDateM (t.length + 1) t
  let flat := pairs.foldr (fun p acc => p.1 :: p.2 :: acc) []
  let sdr :=
    match flat with
    | [] => []
    | h :: tl => minByKey saleKv h tl ++ ((" – ").data) ++ maxByKey saleKv h tl
  let sdr2 :=
    if sdr = [] then
      match searchBK saleRange2M none t with
      | some g => g.1 ++ ((" – ").data) ++ g.2
      | none => []
    else sdr
  let rows := findallBK compRowM (t.length + 1) none t
  let cu :=
    if rows.length ≠ 0 then
      (toString rows.length).data ++ ((" closed sales").data)
    else []
  { comps_used := cu, adj_range := adj, sale_date_range := sdr2 }

/-! ## `find_gross_net_percentages` (engine lines 551–569) -/

def isSign (c : Char) : Bool := c = '-' || c = '+'

def isColonEqWs (c : Char) : Bool := c = ':' || c = '=' || pyWs c

/-- `{word}\s*Adj[:=\s]+[-+]?\d+\.?\d*\s*%`. -/
def adjPctFrag (word : String) (k : K α) : K α :=
  litCIk word.data (wsS (litCIk (("Adj").data) (repGU isColonEqWs 1
    (optK (fun k2 => clsK isSign k2) (repGU digitA 1
      (optK (fun k2 => litCSk (['.']) k2)
        (repGU digitA 0 (wsS (litCSk (['%']) k)))))))))

/-- `[-+]?[\d.]+\s*%\s*{word}`. -/
def pctWordFrag (word : String) (k : K α) : K α :=
  optK (fun k2 => clsK isSign k2) (repGU isDigDot 1 (wsS (litCSk (['%'])
    (wsS (litCIk word.data k)))))

/-- `(Comp\s*#?{i}.*?)(Net\s*Adj...%).*?(Gross\s*Adj...%)` with `re.DOTALL`;
`group(0)` is returned. -/
def gnpM1 (i : Nat) : K (List Char) :=
  grabK (fun k2 => litCIk (("Comp").data) (wsS (optK (fun k3 => litCSk (['#']) k3)
      (litCSk (toString i).data (repLU anyChar 0
        (adjPctFrag ("Net") (repLU anyChar 0 (adjPctFrag ("Gross") k2))))))))
    (fun cap => fun _ => some cap)

/-- `(?:Comp\s*#?{i}.*?)([-+]?[\d.]+\s*%\s*Net).*?([-+]?[\d.]+\s*%\s*Gross)`
with `re.DOTALL`; `group(0)` is returned. -/
def gnpM2 (i : Nat) : K (List Char) :=
  grabK (fun k2 => litCIk (("Comp").data) (wsS (optK (fun k3 => litCSk (['#']) k3)
      (litCSk (toString i).data (repLU anyChar 0
        (pctWordFrag ("Net") (repLU anyChar 0 (pctWordFrag ("Gross") k2))))))))
    (fun cap => fun _ => some cap)

/-- `{word}.*?([-+]?\d+\.?\d*)\s*%` on the snippet (no `re.DOTALL`). -/
def innerPct (word : String) (snip : List Char) : Option (List Char) :=
  searchK (litCIk word.data (repLU notNL 0
    (grabK (fun k2 => optK (fun k3 => clsK isSign k3) (repGU digitA 1
        (optK (fun k3 => litCSk (['.']) k3) (repGU digitA 0 k2))))
      (fun cap => wsS (litCSk (['%']) (fun _ => some cap)))))) snip

/-- One iteration of `find_gross_net_percentages`: the `(net, gross)` capture
pair for comparable `i`, when either snippet pattern matches. -/
def find_gross_net_one (t : List Char) (i : Nat) : Option (List Char × List Char) :=
  match orO (searchK (gnpM1 i) t) (searchK (gnpM2 i) t) with
  | some snip =>
    some ((innerPct ("Net") snip).getD [], (innerPct ("Gross") snip).getD [])
  | none => none

/-! ## `find_adjustments` (engine lines 571–586) -/

/-- At least one unit, then greedily up to `fuel` more. -/
def repUnit1 (u : K α → K α) (fuel : Nat) (k : K α) : K α :=
  u (repUpTo u fuel k)

/-- `(?<!#)\s*(\+|-)\s*\$?\s*([0-9]{1,3}(?:,[0-9]{3})+|\d{4,})\b`. -/
def amtM (prev : Option Char) : K (List Char × List Char) := fun s =>
  if prev = some '#' then none
  else (wsS (grabK (fun k2 => clsK isSign k2)
    (fun sign => wsS (optK (fun k2 => litCSk (['$']) k2)
      (wsS (grabK (fun k2 => altK
          (fun k3 => repG digitA 1 3
            (repUnit1 (fun k4 => litCSk ([',']) (repG digitA 3 3 k4)) s.length k3))
          (fun k3 => repG digitA 4 s.length k3)
        k2)
        (fun amt => bdryAt prev s (fun _ => some (sign, amt))))))))) s

/-- `(Comp\s*#?{i}[^.\n]{0,200}?{label}[^.\n]{0,120}?)`. -/
def fadjP1 (i : Nat) (label : String) : K (List Char) :=
  grabK (fun k2 => litCIk (("Comp").data) (wsS (optK (fun k3 => litCSk (['#']) k3)
      (litCSk (toString i).data (repL notNLDot 0 200
        (litCIk label.data (repL notNLDot 0 120 k2)))))))
    (fun cap => fun _ => some cap)

/-- `({label}[^.\n]{0,200}?Comp\s*#?{i}[^.\n]{0,120}?)`. -/
def fadjP2 (i : Nat) (label : String) : K (List Char) :=
  grabK (fun k2 => litCIk label.data (repL notNLDot 0 200
      (litCIk (("Comp").data) (wsS (optK (fun k3 => litCSk (['#']) k3)
        (litCSk (toString i).data (repL notNLDot 0 120 k2)))))))
    (fun cap => fun _ => some cap)

def fadjTry (t : List Char) (p : K (List Char)) : Option (List Char) :=
  match searchK p t with
  | some snip => (searchBK amtM none snip).map (fun q => q.1 ++ q.2)
  | none => none

/-- `find_adjustments` (engine lines 571–586). -/
def find_adjustments (t : List Char) (i : Nat) (label : String) : List Char :=
  match fadjTry t (fadjP1 i label) with
  | some r => r
  | none =>
    match fadjTry t (fadjP2 i label) with
    | some r => r
    | none => []

/-! ## `compose_output_analyst` (engine lines 685–877) -/

/-- `_normalize_address` (engine lines 98–103). -/
def normalize_address (a : List Char) : List Char :=
  pyStrip (collapseWsAll ((a.map lowerA).filter (fun c => wordA c || pyWs c)))

/-- `len(re.findall(re.escape(lit), t, re.IGNORECASE))`. -/
def countOccCI (t lit : List Char) : Nat :=
  if lit = [] then 0
  else (findallK (fun s => (stripCI lit s).map (fun r => ((), r)))
    (t.length + 1) t).length

def isBorrowerName (c : Char) : Bool :=
  wordA c || c = '\'' || c = '&' || pyWs c || c = ','

/-- `\bBorrower\s*[:=\-]\s*[A-Z][\w'&\s,]+` (with `re.IGNORECASE`). -/
def borrowerOk (t : List Char) : Bool :=
  (searchBK (fun prev s =>
      if isWordO prev then none
      else litCIk (("Borrower").data) (wsS (clsK isColonEqDash
        (wsS (clsK alphaA (repGU isBorrowerName 1 (fun r => some r)))))) s)
    none t).isSome

/-- `Highest\s*&?\s*Best\s*Use.*?(present\s*use|as\s*improved|vacant)|Is\s+the\s+highest\s+and\s+best\s+use.*?\bYes\b`. -/
def hbuOk (t : List Char) : Bool :=
  (searchBK (fun prev s =>
    (altK
      (fun k2 => litCIk (("Highest").data) (wsS (optK (fun k3 => litCSk (['&']) k3)
        (wsS (litCIk (("Best").data) (wsS (litCIk (("Use").data)
          (repLU notNL 0 (alt3K
            (fun k3 => litCIk (("present").data) (wsS (litCIk (("use").data) k3)))
            (fun k3 => litCIk (("as").data) (wsS (litCIk (("improved").data) k3)))
            (fun k3 => litCIk (("vacant").data) k3)
            k2)))))))))
      (fun k2 => litCIk (("Is").data) (wsP (litCIk (("the").data) (wsP (litCIk (("highest").data)
        (wsP (litCIk (("and").data) (wsP (litCIk (("best").data) (wsP (litCIk (("use").data)
          (repLU notNL 0 (bdryAt prev s (litCIk (("Yes").data)
            (bdryAfterWord k2)))))))))))))))
      (fun r => some r)) s)
    none t).isSome

/-- `\b(Garage|Carport)\b`. -/
def garageAny (t : List Char) : Bool :=
  (searchBK (fun prev s =>
      if isWordO prev then none
      else altK (fun k2 => litCIk (("Garage").data) k2)
             (fun k2 => litCIk (("Carport").data) k2)
        (bdryAfterWord (fun r => some r)) s)
    none t).isSome

/-- `(?:(date_num)|(date_txt))` of the effective/inspection comparison:
returns which of the two date groups matched. -/
def dateAltM : K (Option (List Char) × Option (List Char)) := fun s =>
  match (grabK dateNumFrag (fun cap => fun _ => some cap) : K (List Char)) s with
  | some cap => some (some cap, none)
  | none =>
    match (grabK (fun k2 => monthFrag (wsP (repG digitA 1 2 (litCSk ([','])
        (wsS (repG digitA 4 4 k2))))))
      (fun cap => fun _ => some cap) : K (List Char)) s with
    | some cap => some (none, some cap)
    | none => none

/-- `(Effective\s+Date|Date\s+of\s+Appraised\s+Value)\s*[:=\-]?\s*(?:{date_num}|{date_txt})`. -/
def effDateCmpM : K (Option (List Char) × Option (List Char)) :=
  altK (fun k2 => litCIk (("Effective").data) (wsP (litCIk (("Date").data) k2)))
       (fun k2 => litCIk (("Date").data) (wsP (litCIk (("of").data)
         (wsP (litCIk (("Appraised").data) (wsP (litCIk (("Value").data) k2)))))))
    (wsS (optK (fun k2 => clsK isColonEqDash k2) (wsS dateAltM)))

/-- `(Date\s+of\s+Inspection|Inspection\s+Date|inspected\s+on)\s*[:=\-]?\s*(?:{date_num}|{date_txt})`. -/
def inspDateCmpM : K (Option (List Char) × Option (List Char)) :=
  alt3K
    (fun k2 => litCIk (("Date").data) (wsP (litCIk (("of").data)
      (wsP (litCIk (("Inspection").data) k2)))))
    (fun k2 => litCIk (("Inspection").data) (wsP (litCIk (("Date").data) k2)))
    (fun k2 => litCIk (("inspected").data) (wsP (litCIk (("on").data) k2)))
    (wsS (optK (fun k2 => clsK isColonEqDash k2) (wsS dateAltM)))

/-- `adj_support` (engine line 740). -/
def adjSupport (t : List Char) : Bool :=
  (searchK (alt4K
      (fun k2 => litCIk (("paired").data) (wsP (litCIk (("sales").data) k2)))
      (fun k2 => litCIk (("market").data) (wsP (litCIk (("support").data) k2)))
      (fun k2 => litCIk (("contributory").data) (wsP (litCIk (("value").data) k2)))
      (fun k2 => litCIk (("extracted").data) (wsP (litCIk (("from").data)
        (wsP (litCIk (("sales").data) k2)))))
    (fun r => some r)) t).isSome

/-- `paired_ref` (engine line 846). -/
def pairedRef (t : List Char) : Bool :=
  (searchK (altK
      (fun k2 => litCIk (("paired").data) (wsP (litCIk (("sales").data) k2)))
      (fun k2 => litCIk (("contributory").data) (wsP (litCIk (("value").data) k2)))
    (fun r => some r)) t).isSome

/-- `(Comp\s*#\d.*\n.*?)(?:\1)` — duplicate-comp detection with a
backreference (case-insensitive under `re.IGNORECASE`). -/
def dupM : K Unit :=
  grabK (fun k2 => litCIk (("Comp").data) (wsS (litCSk (['#']) (clsK digitA
      (repGU notNL 0 (clsK (fun c => c = '\n') (repLU notNL 0 k2)))))))
    (fun g1 => litCIk g1 (fun _ => some ()))

def hasDupComps (t : List Char) : Bool := (searchK dupM t).isSome

/-- `f"{label}" if present else label.capitalize()` helper: the bracketing
labels are lowercase words. -/
def capitalize1 : List Char → List Char
  | [] => []
  | c :: rest => upperA c :: rest

/-- The executive-summary block (engine lines 689–756) distilled into its
inputs. -/
structure AnalystFacts where
  address_ok : Bool
  borrower_ok : Bool
  client_ok : Bool
  hbu_ok : Bool
  garage_any : Bool
  date_compared : Bool
  eff_match : Bool
  adj_support : Bool
  passes : Nat
  flags_cnt : Nat
  gaps : List String

/-- The fact-gathering prologue of `compose_output_analyst`
(engine lines 689–742). -/
def analystFacts (md : Metadata) (text : List Char) : AnalystFacts :=
  let subj := parse_subject_basics text
  let subj_addr_norm := normalize_address subj.subject_address
  let address_ok :=
    if subj_addr_norm ≠ [] then
      decide (1 ≤ countOccCI text subj.subject_address)
    else false
  let borrower_ok := borrowerOk text
  let client_ok := md.client ≠ ("")
  let hbu_ok := hbuOk text
  let garage_any := garageAny text
  let eff_val := match searchK effDateCmpM text with
    | some g => orGroup g.1 g.2
    | none => []
  let insp_val := match searchK inspDateCmpM text with
    | some g => orGroup g.1 g.2
    | none => []
  let date_compared := eff_val ≠ [] && insp_val ≠ []
  let eff_match := if date_compared then decide (eff_val = insp_val) else false
  let compq := parse_comps_quick text
  let adj_support := adjSupport text
  let passes :=
    (if address_ok then 1 else 0) + (if borrower_ok then 1 else 0) +
    (if client_ok then 1 else 0) + (if hbu_ok then 1 else 0) +
    (if garage_any then 1 else 0) +
    (if date_compared && eff_match then 1 else 0) +
    (if compq.comp_gla ≠ [] then 1 else 0)
  let flags_cnt :=
    (if address_ok then 0 else 1) + (if adj_support then 0 else 1)
  let gaps :=
    (if client_ok then [] else [("Client/Lender")]) ++
    (if date_compared then [] else [("Inspection date")]) ++
    (if compq.comp_gla ≠ [] then [] else [("Comp GLA range")])
  { address_ok := address_ok, borrower_ok := borrower_ok,
    client_ok := client_ok, hbu_ok := hbu_ok, garage_any := garage_any,
    date_compared := date_compared, eff_match := eff_match,
    adj_support := adj_support, passes := passes, flags_cnt := flags_cnt,
    gaps := gaps }

/-- `"; ".join` / `", ".join`. -/
def joinSep (sep : String) (L : List String) : String :=
  match L with
  | [] => ("")
  | h :: t => t.foldl (fun acc x => acc ++ sep ++ x) h

/-- Lines of the EXECUTIVE SUMMARY section (engine lines 745–756). -/
def analystExecLines (f : AnalystFacts) : List String :=
  let top_flags :=
    (if f.address_ok then [] else [("Subject address consistency not confirmed")]) ++
    (if f.adj_support then []
     else [("[USPAP SR 1-4, 2-2(a)(viii)] Adjustments lack clear paired-sales/market support")])
  [("EXECUTIVE SUMMARY"),
    ("Pass: ") ++ toString f.passes ++ (" • Flags: ") ++ toString f.flags_cnt] ++
  (if top_flags ≠ [] then [("Top flags: ") ++ joinSep ("; ") top_flags] else []) ++
  (if f.gaps ≠ [] then [("Data gaps: ") ++ joinSep (", ") f.gaps] else []) ++
  [("")]

/-- Lines of the CORE FACTS section (engine lines 762–778). -/
def analystCoreLines (md : Metadata) (ev : CoreEvidence) :
    List String :=
  [("CORE FACTS")] ++
  (if md.value_conclusion ≠ ("") then
    [withEvidence (("Value Conclusion: ") ++ md.value_conclusion) ev.value]
   else []) ++
  (if md.effective_date ≠ ("") then
    [withEvidence (("Effective Date: ") ++ md.effective_date) ev.effective_date]
   else []) ++
  (if md.form_type ≠ ("") then [("Form Type: ") ++ md.form_type] else []) ++
  (if md.rights_appraised ≠ ("") then
    [withEvidence (("Rights Appraised: ") ++ md.rights_appraised) ev.rights]
   else []) ++
  [("Client / Lender: ") ++ orDefault md.client ("N/A")] ++
  (if md.intended_use ≠ ("") then
    [withEvidence (("Intended Use: ") ++ md.intended_use) ev.intended_use]
   else []) ++
  (if md.is_va_loan = ("Yes") && md.va_case_number = ("") then
    [("VA indicators present; VA case number not found.")]
   else []) ++
  (if md.va_case_number ≠ ("") then
    [withEvidence (("VA Case Number: ") ++ md.va_case_number) ev.va_case]
   else []) ++
  [("")]

/-- Lines of the INTERNAL CONSISTENCY REVIEW section
(engine lines 781–793). -/
def analystConsistencyLines (f : AnalystFacts) : List String :=
  [("INTERNAL CONSISTENCY REVIEW"),
    (if f.address_ok then ("✔ Subject property address is consistent across all sections")
     else ("❌ Subject address consistency not confirmed")),
    (if f.borrower_ok && f.client_ok then
      ("✔ Borrower and client/lender names are consistent throughout")
     else ("❌ Borrower/client consistency not confirmed")),
    (if f.hbu_ok then ("✔ Highest & Best Use is stated and supported")
     else ("❌ Highest & Best Use statement/support not found")),
    (if f.garage_any then
      ("✔ Garage/carport count consistent across improvement section and sales grid")
     else ("ℹ️ No garage/carport information found")),
    (if !f.date_compared then
      ("ℹ️ Not enough date information to compare effective vs. inspection date")
     else if f.eff_match then
      ("✔ Effective date and inspection date match across all references")
     else ("❌ Effective vs. inspection date mismatch")),
    ("")]

/-- Lines of the USPAP / VA / FIRREA FLAG CHECK section
(engine lines 796–806). -/
def analystUspapLines (md : Metadata) (text : List Char) (f : AnalystFacts) :
    List String :=
  [("USPAP / VA / FIRREA FLAG CHECK"),
    (if f.hbu_ok then ("✔ [USPAP SR 1-3] Highest & Best Use is stated clearly")
     else ("❌ [USPAP SR 1-3] H&BU statement/support not confirmed")),
    (if f.adj_support then
      ("✔ [USPAP SR 1-4, 2-2(a)(viii)] Adjustments supported by market discussion")
     else ("❌ [USPAP SR 1-4, 2-2(a)(viii)] Adjustments lack clear paired-sales/market support")),
    ("✔ [USPAP SR 1-1(c)] No contradictory or unverifiable market claims detected"),
    (if md.is_va_loan = ("Yes") then
      (if hasMpr text then ("✔ VA MPR references present")
       else ("❌ VA indicators present without MPR references"))
     else ("✔ No VA-specific requirements apply (non-VA report)")),
    ("✔ No unclear “subject-to” language or missing scope of work"),
    ("")]

/-- CPython `float()` including an optional sign. -/
def pyFloatParseS (s : List Char) : Option Rat :=
  match s with
  | '+' :: r => pyFloatParse r
  | '-' :: r => (pyFloatParse r).map Neg.neg
  | _ => pyFloatParse s

/-- The `risky` scan of the COMP ANALYSIS section (engine lines 826–834):
first comparable whose gross adjustment parses and is at least 25. -/
def riskyScan (t : List Char) : List (Nat × List Char) :=
  (List.range 5).foldr (fun j acc =>
    let i := j + 1
    match find_gross_net_one t i with
    | some p =>
      if p.2 ≠ [] then
        match pyFloatParseS p.2 with
        | some x => if 25 ≤ x then (i, p.2) :: acc else acc
        | none => acc
      else acc
    | none => acc) []

/-- Lines of the COMP ANALYSIS REVIEW section (engine lines 809–852). -/
def analystCompLines (text : List Char) : List String :=
  let compq := parse_comps_quick text
  let glaLines :=
    match compq.comp_gla with
    | [] => [("ℹ️ Not enough data to confirm GLA bracketing (comp GLA range missing)")]
    | h :: tl =>
      let low := commaFmt (ratTruncNat (ratMin h tl))
      let high := commaFmt (ratTruncNat (ratMax h tl))
      let subj_gla := (parse_subject_basics text).subject_gla
      if subj_gla ≠ [] then
        match pyFloatParse subj_gla with
        | some x =>
          [("✔ Subject is bracketed by comps for Gross Living Area (") ++
            commaFmt (ratTruncNat x) ++ (" sf vs. comps ") ++ low ++ ("–") ++
            high ++ (" sf)")]
        | none =>
          [("ℹ️ Subject GLA not found; comp GLA range ") ++ low ++ ("–") ++
            high ++ (" sf")]
      else
        [("ℹ️ Subject GLA not found; comp GLA range ") ++ low ++ ("–") ++
          high ++ (" sf")]
  let labelLines := [("site"), ("age"), ("condition"), ("quality")].map
    (fun label =>
      if containsSubCI text (String.data label) then
        ("✔ Subject bracketed for ") ++ label
      else ("ℹ️ ") ++ String.mk (capitalize1 (String.data label)) ++
        (" bracketing not confirmed"))
  let riskyLine :=
    match riskyScan text with
    | (cnum, gv) :: _ =>
      ("❌ Comp #") ++ toString cnum ++ (" exceeds 25% gross adjustment (") ++
        String.mk gv ++ ("%); commentary support recommended")
    | [] =>
      ("✔ Gross/net adjustments within typical ranges (no 25% gross exceedance detected)")
  let dupLine :=
    if !hasDupComps text then ("✔ No duplicate comps detected")
    else ("❌ Possible duplicate comps detected")
  let g1 := find_adjustments text 1 ("garage")
  let g3 := find_adjustments text 3 ("garage")
  let garageLine :=
    if (g1 ≠ [] || g3 ≠ []) && !pairedRef text then
      let parts := (if g1 ≠ [] then [("Comp #1 ") ++ String.mk g1] else []) ++
        (if g3 ≠ [] then [("Comp #3 ") ++ String.mk g3] else [])
      ("❌ Commentary for garage adjustments (") ++ joinSep (", ") parts ++
        (") lacks paired-sales or contributory value reference")
    else ("✔ No unsupported garage adjustments detected")
  [("COMP ANALYSIS REVIEW")] ++ glaLines ++ labelLines ++
    [riskyLine, dupLine, garageLine, ("")]

/-- Lines of the SUMMARY METADATA section (engine lines 855–869). -/
def analystSummaryLines (text : List Char) : List String :=
  let compq := parse_comps_quick text
  let comp_summary := summarize_comps_ranges text
  let comps_used :=
    if comp_summary.comps_used ≠ [] then String.mk comp_summary.comps_used
    else if compq.comp_gla ≠ [] || compq.miles ≠ [] || compq.dom ≠ [] then
      toString (max 1 compq.comp_gla.length) ++ (" closed sales")
    else ("N/A")
  let miles_span :=
    match compq.miles with
    | [] => ("N/A")
    | [m] => fmt2f m ++ (" miles")
    | h :: tl => fmt2f (ratMin h tl) ++ ("–") ++ fmt2f (ratMax h tl) ++ (" miles")
  let dom_span :=
    match compq.dom with
    | [] => ("N/A")
    | [d] => toString (ratTruncNat d)
    | h :: tl => toString (ratTruncNat (ratMin h tl)) ++ ("–") ++
        toString (ratTruncNat (ratMax h tl))
  [("SUMMARY METADATA"),
    (if comps_used ≠ ("N/A") then
      ("Comparables Used: ") ++ comps_used ++ (" (") ++ miles_span ++
        ("; DOM ") ++ dom_span ++ (")")
     else ("Comparables Used: ") ++ comps_used),
    ("Adjusted Value Range: ") ++
      orDefault (String.mk comp_summary.adj_range) ("N/A"),
    ("Sale Date Range: ") ++
      orDefault (String.mk comp_summary.sale_date_range) ("N/A"),
    ("")]

/-- The full line list of `compose_output_analyst`. -/
def analystLines (md : Metadata) (text : List Char)
    (pages : List (List Char)) (reqId : String) : List String :=
  analystExecLines (analystFacts md text) ++
  analystCoreLines md (gather_core_evidence pages md) ++
  analystConsistencyLines (analystFacts md text) ++
  analystUspapLines md text (analystFacts md text) ++
  analystCompLines text ++
  analystSummaryLines text ++
  [DISCLAIMER_LINE] ++
  (if SHOW_FOOTER then
    [(""), ("— Engine v") ++ ENGINE_VERSION ++ (" • req:") ++ reqId]
   else [])

/-- `compose_output_analyst` (engine lines 685–877). -/
def compose_output_analyst (md : Metadata) (text : List Char)
    (pages : List (List Char)) (reqId : String) : String :=
  joinNl (analystLines md text pages reqId)

/-! ## The pipeline environment and entry points

The Azure Document Intelligence client and PyMuPDF (`fitz`) are external
effects.  A `PipeEnv` records the outcomes they would produce for the
uploaded bytes:

* `rawIsPdf` — whether `raw[:5].startswith(b"%PDF")`;
* `fitzOpens` — whether `fitz.open(stream=raw)` succeeds;
* `needsPass` — the opened document's `needs_pass` flag;
* `sizeOver` — whether `len(raw) > 3_800_000` (affects only the bytes sent
  to Azure, not the extracted text);
* `azureOk` — whether `begin_analyze_document(...).result()` succeeds;
* `azureContent` / `azureLines` — the `result.content` string and the
  per-line fallback contents of the Azure result;
* `pdfPages` — the raw per-page texts PyMuPDF would extract (`none` when
  opening/reading fails);
* `filename` — the upload's `filename` attribute (`none` when absent).

`secrets.token_hex(4)` (the request id) is modelled as an explicit
argument. -/

structure PipeEnv where
  rawIsPdf : Bool
  fitzOpens : Bool
  needsPass : Bool
  sizeOver : Bool
  azureOk : Bool
  azureContent : String
  azureLines : List String
  pdfPages : Option (List String)
  filename : Option String

/-- `extract_text_with_pymupdf` (engine lines 118–127): join the page texts
and normalize; every failure yields `""`. -/
def extract_text_with_pymupdf (env : PipeEnv) : String :=
  match env.pdfPages with
  | some ps => normalizeText (joinNl ps)
  | none => ("")

/-- `extract_pages_text` (engine lines 129–139): page-wise normalized text;
failures yield `[]`. -/
def extract_pages_text (env : PipeEnv) : List String :=
  match env.pdfPages with
  | some ps => ps.map normalizeText
  | none => []

def encryptedMsg : String := ("Encrypted/PW-protected PDF is not supported.")

def azureFailMsg : String :=
  ("Azure analysis failed and local text extraction also failed. Try a different or smaller PDF.")

/-- The Azure result's `parts` (engine lines 193–199): the whole `content`
when non-empty, otherwise the per-line contents; empty strings are
filtered. -/
def azureParts (env : PipeEnv) : List String :=
  (if env.azureContent ≠ ("") then [env.azureContent] else env.azureLines).filter
    (fun p => p ≠ (""))

/-- `extract_text_with_azure` (engine lines 166–220), as a function of the
environment.  `Except.error` is a raised `RuntimeError`. -/
def extract_text_with_azure (env : PipeEnv) : Except String String :=
  if env.rawIsPdf && env.fitzOpens && env.needsPass then
    Except.error encryptedMsg
  else if env.azureOk then
    let text := normalizeText (joinNl (azureParts env))
    let sparse := text.length < 800 ||
      (!containsSub text.data (("GLA").data) &&
       !containsSub text.data (("Comparable").data) &&
       !containsSub text.data (("COMPARABLE").data))
    let text2 :=
      if sparse then
        let fallback := extract_text_with_pymupdf env
        if text.length < fallback.length then fallback else text
      else text
    Except.ok text2
  else
    let fallback := extract_text_with_pymupdf env
    if fallback ≠ ("") then Except.ok (normalizeText fallback)
    else Except.error azureFailMsg

/-- `str.lower` on the ASCII style strings. -/
def pyLowerStr (s : String) : String := String.mk (s.data.map lowerA)

/-- `run_audit` (engine lines 882–906).  `reqId` models
`secrets.token_hex(4)`; `styleOverride` is the web layer's style argument. -/
def run_audit (env : PipeEnv) (styleOverride : Option String) (reqId : String) :
    Except String String := do
  let text ← extract_text_with_azure env
  let md0 := extract_metadata text
  let md := { md0 with
    file_name := orDefault (env.filename.getD ("")) ("[Not found in file]") }
  let flags := check_flags text.data md
  let style := pyLowerStr (orDefault (styleOverride.getD ("")) OUTPUT_STYLE)
  let pages := (extract_pages_text env).map String.data
  if style = ("v27") then
    pure (compose_output_v27 md flags)
  else
    pure (compose_output_analyst md text.data pages reqId)

/-- The web layer's responses (`src/app.py`): a plain-text body or the JSON
error object of `_json_error`. -/
inductive HttpResponse where
  | plainText (body : String) (status : Nat)
  | jsonError (message : String) (status : Nat)
deriving DecidableEq

/-- `audit_upload` (`src/app.py` lines 189–214): the `/audit` endpoint.
`hasFile` models `request.files.get("file")` being present; `style` is the
request's style parameter (already stripped/lowered by the handler). -/
def audit_upload (env : PipeEnv) (hasFile : Bool) (style : String)
    (reqId : String) : HttpResponse :=
  if !hasFile then
    HttpResponse.jsonError (("Missing 'file' in multipart form-data.")) 400
  else
    match run_audit env (some style) reqId with
    | Except.ok result => HttpResponse.plainText result 200
    | Except.error e =>
      HttpResponse.jsonError ((("Processing failed: ")) ++ e) 422

/-! ## Test pipeline environments and request-handling helpers -/

/-- A minimal healthy environment: Azure succeeds with content `"x"`. -/
def env0 : PipeEnv := ⟨false, false, false, false, true, ("x"), [], none, none⟩

/-- An environment whose document text carries a VA marker (`"VA Loan"`)
and no MPR marker. -/
def envVA : PipeEnv := ⟨false, false, false, false, true, ("VA Loan"), [], none, none⟩

/-- An encrypted-PDF environment: `fitz` opens the file and reports
`needs_pass`, so `extract_text_with_azure` raises. -/
def envEnc : PipeEnv := ⟨true, true, true, false, false, (""), [], none, none⟩

/-- The metadata record `run_audit` passes to the composers: extraction
result with the upload's file name patched in (engine lines 893–895). -/
def auditMd (env : PipeEnv) (t : String) : Metadata :=
  { extract_metadata t with
    file_name := orDefault (env.filename.getD ((""))) (("[Not found in file]")) }

/-- The page list `run_audit` passes to `compose_output_analyst`. -/
def auditPages (env : PipeEnv) : List (List Char) :=
  (extract_pages_text env).map String.data

/-! ## Basic string lemmas -/

theorem strData_append (a b : String) : (a ++ b).data = a.data ++ b.data := rfl

theorem strExt {a b : String} (h : a.data = b.data) : a = b := by
  cases a; cases b; exact congrArg String.mk h

theorem strAppend_assoc (a b c : String) : (a ++ b) ++ c = a ++ (b ++ c) :=
  strExt (by simp only [strData_append, List.append_assoc])

theorem strAppend_left_cancel (p a b : String) (h : p ++ a = p ++ b) : a = b := by
  have h2 := congrArg String.data h
  simp only [strData_append] at h2
  exact strExt (List.append_cancel_left h2)

/-! ## Lemmas about `joinNl` and `splitNlL` -/

theorem joinNl_foldl_shift (t : List String) (p q : String) :
    t.foldl (fun acc x => acc ++ ("\n") ++ x) (p ++ q) =
      p ++ t.foldl (fun acc x => acc ++ ("\n") ++ x) q := by
  induction t generalizing q with
  | nil => rfl
  | cons a t ih =>
    show t.foldl _ (((p ++ q) ++ ("\n")) ++ a) = p ++ t.foldl _ (((q ++ ("\n"))) ++ a)
    have e : ((p ++ q) ++ ("\n")) ++ a = p ++ ((q ++ ("\n")) ++ a) := by
      simp only [strAppend_assoc]
    rw [e]
    exact ih ((q ++ ("\n")) ++ a)

theorem joinNl_cons_cons (a b : String) (t : List String) :
    joinNl (a :: b :: t) = a ++ ("\n") ++ joinNl (b :: t) := by
  show t.foldl (fun acc x => acc ++ ("\n") ++ x) ((a ++ ("\n")) ++ b) =
      (a ++ ("\n")) ++ t.foldl (fun acc x => acc ++ ("\n") ++ x) b
  exact joinNl_foldl_shift t (a ++ ("\n")) b

theorem joinNl_append_singleton (L : List String) (x : String) (h : L ≠ []) :
    joinNl (L ++ [x]) = joinNl L ++ ("\n") ++ x := by
  induction L with
  | nil => exact absurd rfl h
  | cons a t ih =>
    cases t with
    | nil => rfl
    | cons b t2 =>
      have e1 : (a :: b :: t2) ++ [x] = a :: b :: (t2 ++ [x]) := rfl
      rw [e1, joinNl_cons_cons]
      have e2 : (b :: (t2 ++ [x])) = (b :: t2) ++ [x] := rfl
      rw [e2, ih (List.cons_ne_nil b t2), joinNl_cons_cons a b t2]
      simp only [strAppend_assoc]

theorem splitNlL_no_nl (l : List Char) (h : '\n' ∉ l) : splitNlL l = [l] := by
  induction l with
  | nil => rfl
  | cons c r ih =>
    have hc : ¬ c = '\n' := fun hc => h (hc ▸ List.mem_cons_self c r)
    simp only [splitNlL, if_neg hc, ih (fun hm => h (List.mem_cons_of_mem c hm))]

theorem splitNlL_append_nl (p rest : List Char) (h : '\n' ∉ p) :
    splitNlL (p ++ '\n' :: rest) = p :: splitNlL rest := by
  induction p with
  | nil => simp [splitNlL]
  | cons c q ih =>
    have hc : ¬ c = '\n' := fun hc => h (hc ▸ List.mem_cons_self c q)
    simp only [List.cons_append, splitNlL, if_neg hc, List.append_eq,
      ih (fun hm => h (List.mem_cons_of_mem c hm))]

theorem splitNl_joinNl (L : List String) (hne : L ≠ [])
    (h : ∀ l ∈ L, '\n' ∉ l.data) :
    splitNlL (joinNl L).data = L.map String.data := by
  induction L with
  | nil => exact absurd rfl hne
  | cons a t ih =>
    cases t with
    | nil =>
      show splitNlL a.data = [a.data]
      exact splitNlL_no_nl a.data (h a (List.mem_cons_self a []))
    | cons b t2 =>
      rw [joinNl_cons_cons]
      have e : ((a ++ ("\n")) ++ joinNl (b :: t2)).data
          = a.data ++ '\n' :: (joinNl (b :: t2)).data := by
        rw [strData_append, strData_append, List.append_assoc]
        rfl
      rw [e, splitNlL_append_nl _ _ (h a (List.mem_cons_self a (b :: t2)))]
      rw [ih (List.cons_ne_nil b t2) (fun l hl => h l (List.mem_cons_of_mem a hl))]
      rfl

/-! ## The five `compose_output_v27` section headers as a line predicate -/

/-- The five section-header lines of `compose_output_v27`, in order. -/
def v27Headers : List String :=
  [secHeader1, secHeader2, secHeader3, secHeader4, secHeader5]

/-- Is this line one of the five section headers? -/
def isV27Header (l : List Char) : Bool :=
  decide (l ∈ (v27Headers.map String.data))

/-- How many lines of an output string are section headers. -/
def headerLineCount (out : String) : Nat :=
  ((splitNlL out.data).filter isV27Header).length

theorem isV27Header_head (l : List Char) (h : l.head? ≠ some '[') :
    isV27Header l = false := by
  cases hb : isV27Header l with
  | false => rfl
  | true =>
    exfalso
    have hm := of_decide_eq_true hb
    simp only [v27Headers, List.map_cons, List.map_nil, List.mem_cons,
      List.not_mem_nil, or_false] at hm
    rcases hm with h1 | h1 | h1 | h1 | h1 <;> (apply h; rw [h1]; rfl)

theorem notHeader_head_char (l : List Char) (c : Char) (h1 : l.head? = some c)
    (h2 : ¬ c = '[') : isV27Header l = false :=
  isV27Header_head l (fun hc => h2 (Option.some.inj (h1.symm.trans hc)))

theorem filterP_cons_pos {α : Type} (p : α → Bool) (a : α) (l : List α)
    (h : p a = true) : (a :: l).filter p = a :: l.filter p := by
  simp [List.filter_cons, h]

theorem filterP_cons_neg {α : Type} (p : α → Bool) (a : α) (l : List α)
    (h : p a = false) : (a :: l).filter p = l.filter p := by
  simp [List.filter_cons, h]

theorem filter_map_data (p : List Char → Bool) (L : List String) :
    (L.map String.data).filter p = (L.filter (fun s => p s.data)).map String.data := by
  induction L with
  | nil => rfl
  | cons a t ih =>
    simp only [List.map_cons, List.filter_cons, ih]
    cases h : p a.data <;> simp [h]

theorem filter_header_arrow_map (fs : List String) :
    (fs.map (fun f => (("→ ")) ++ f)).filter (fun s => isV27Header s.data) = [] := by
  induction fs with
  | nil => rfl
  | cons a t ih =>
    rw [List.map_cons,
      filterP_cons_neg (fun s => isV27Header s.data) ((("→ ")) ++ a) _
        (notHeader_head_char ((("→ ")) ++ a).data '→' rfl (by decide))]
    exact ih

theorem notHeader_arrow (s : String) (h : s.data.head? = some '→') :
    isV27Header s.data = false := notHeader_head_char s.data '→' h (by decide)

theorem filter_v27Sec1 (md : Metadata) :
    (v27Sec1 md).filter (fun (s : String) => isV27Header s.data) = [secHeader1] := by
  unfold v27Sec1
  rw [List.filter_append]
  have hvc : (List.filter (fun (s : String) => isV27Header s.data)
      (if md.va_case_number ≠ (("")) then
        [(("→ VA Case Number = ")) ++ md.va_case_number] else [])) = [] := by
    by_cases hv : md.va_case_number ≠ ((""))
    · have nv : isV27Header ((("→ VA Case Number = ")) ++ md.va_case_number).data = false :=
        notHeader_arrow _ rfl
      rw [if_pos hv, filterP_cons_neg (fun (s : String) => isV27Header s.data) _ _ nv]
      rfl
    · rw [if_neg hv]; rfl
  rw [hvc]
  have hpos : isV27Header secHeader1.data = true := by decide
  have n1 : isV27Header ((("→ File Name = ")) ++
      orDefault md.file_name (("[Not found in file]"))).data = false := notHeader_arrow _ rfl
  have n2 : isV27Header ((("→ Effective Date = ")) ++
      orDefault md.effective_date (("[Not found]"))).data = false := notHeader_arrow _ rfl
  have n3 : isV27Header ((("→ Form Type = ")) ++
      orDefault md.form_type (("[Not found]"))).data = false := notHeader_arrow _ rfl
  have n4 : isV27Header ((("→ Appraiser Name = ")) ++
      orDefault md.appraiser_name (("[Not found]"))).data = false := notHeader_arrow _ rfl
  have n5 : isV27Header ((("→ Intended Use / Client = ")) ++
      orDefault md.intended_use (("[Not found]")) ++ ((" / ")) ++
      orDefault md.client (("[Not found]"))).data = false := notHeader_arrow _ rfl
  have n6 : isV27Header ((("→ Is VA Loan = ")) ++
      orDefault md.is_va_loan (("No"))).data = false := notHeader_arrow _ rfl
  simp only [List.filter_cons, hpos, n1, n2, n3, n4, n5, n6, eq_self_iff_true,
    if_true, Bool.false_eq_true, if_false, List.filter_nil, List.append_nil]

theorem filter_v27FlagLines (flags : List String) (msg : String)
    (hmsg : isV27Header msg.data = false) :
    (v27FlagLines flags msg).filter (fun (s : String) => isV27Header s.data) = [] := by
  unfold v27FlagLines
  by_cases hf : flags ≠ []
  · rw [if_pos hf]
    exact filter_header_arrow_map flags
  · rw [if_neg hf, filterP_cons_neg (fun (s : String) => isV27Header s.data) _ _ hmsg]
    rfl

theorem v27Lines_filter_headers (md : Metadata) (flags : List String) :
    (v27Lines md flags).filter (fun (s : String) => isV27Header s.data) = v27Headers := by
  unfold v27Lines
  simp only [List.filter_append]
  rw [filter_v27Sec1 md]
  rw [filter_v27FlagLines flags
    (("→ No material compliance flags detected by automated checks.")) (by decide)]
  rw [filter_v27FlagLines flags (("→ None.")) (by decide)]
  rw [filter_v27FlagLines (summarize_top_flags flags 3) (("→ None.")) (by decide)]
  rw [show List.filter (fun (s : String) => isV27Header s.data)
      [(("")), secHeader2] = [secHeader2] from by decide]
  rw [show List.filter (fun (s : String) => isV27Header s.data)
      [(("")), secHeader3] = [secHeader3] from by decide]
  rw [show List.filter (fun (s : String) => isV27Header s.data)
      [(("")), secHeader4] = [secHeader4] from by decide]
  rw [show List.filter (fun (s : String) => isV27Header s.data)
      [(("")), secHeader5,
        (("→ Automated extraction powered by Azure Document Intelligence. Manual review recommended."))]
      = [secHeader5] from by decide]
  rw [show List.filter (fun (s : String) => isV27Header s.data)
      (if SHOW_FOOTER then [(("")), (("— Engine v")) ++ ENGINE_VERSION] else [])
      = [] from by decide]
  rfl

theorem v27Lines_ne_nil (md : Metadata) (flags : List String) :
    v27Lines md flags ≠ [] := by
  intro h
  have h2 := congrArg List.head? h
  rw [show (v27Lines md flags).head? = some secHeader1 from rfl] at h2
  exact Option.noConfusion h2

/-! ## Decomposition of the analyst output's line list -/

/-- Everything of `analystLines` before the request-id footer line. -/
def analystLinesPre (md : Metadata) (text : List Char)
    (pages : List (List Char)) : List String :=
  analystExecLines (analystFacts md text) ++
  analystCoreLines md (gather_core_evidence pages md) ++
  analystConsistencyLines (analystFacts md text) ++
  analystUspapLines md text (analystFacts md text) ++
  analystCompLines text ++
  analystSummaryLines text ++
  [DISCLAIMER_LINE] ++
  [((""))]

/-- The constant prefix of the analyst footer line. -/
def analystFooterPre : String := (("— Engine v")) ++ ENGINE_VERSION ++ ((" • req:"))

theorem analystLines_decomp (md : Metadata) (text : List Char)
    (pages : List (List Char)) (r : String) :
    analystLines md text pages r =
      analystLinesPre md text pages ++ [analystFooterPre ++ r] := by
  simp only [analystLines, analystLinesPre, analystFooterPre, List.append_assoc]
  rfl

theorem analystLinesPre_ne_nil (md : Metadata) (text : List Char)
    (pages : List (List Char)) : analystLinesPre md text pages ≠ [] := by
  intro h
  have h2 := congrArg List.head? h
  rw [show (analystLinesPre md text pages).head? = some (("EXECUTIVE SUMMARY")) from rfl] at h2
  exact Option.noConfusion h2

theorem analystLines_ne_nil (md : Metadata) (text : List Char)
    (pages : List (List Char)) (r : String) :
    analystLines md text pages r ≠ [] := by
  intro h
  rw [analystLines_decomp] at h
  exact List.append_ne_nil_of_right_ne_nil _ (List.cons_ne_nil _ _) h

theorem compose_analyst_req_inj (md : Metadata) (text : List Char)
    (pages : List (List Char)) (r1 r2 : String)
    (h : compose_output_analyst md text pages r1 =
         compose_output_analyst md text pages r2) : r1 = r2 := by
  unfold compose_output_analyst at h
  rw [analystLines_decomp, analystLines_decomp] at h
  rw [joinNl_append_singleton _ _ (analystLinesPre_ne_nil md text pages),
      joinNl_append_singleton _ _ (analystLinesPre_ne_nil md text pages)] at h
  have h2 := strAppend_left_cancel _ _ _ h
  exact strAppend_left_cancel _ _ _ h2

/-! ## Stepping `run_audit` on a successful extraction, analyst style -/

theorem run_audit_analyst_eq (env : PipeEnv) (t r : String)
    (hx : extract_text_with_azure env = Except.ok t) :
    run_audit env (some (("analyst"))) r =
      Except.ok (compose_output_analyst (auditMd env t) t.data (auditPages env) r) := by
  unfold run_audit
  rw [hx]
  rfl

/-- Stepping `run_audit` in the `v27` style on a successful extraction. -/
theorem run_audit_v27_eq (env : PipeEnv) (t r : String)
    (hx : extract_text_with_azure env = Except.ok t) :
    run_audit env (some (("v27"))) r =
      Except.ok (compose_output_v27 (auditMd env t)
        (check_flags t.data (auditMd env t))) := by
  unfold run_audit
  rw [hx]
  rfl

/-- `run_audit` propagates the extraction `RuntimeError` unchanged. -/
theorem run_audit_error_eq (env : PipeEnv) (so : Option String) (r e : String)
    (hx : extract_text_with_azure env = Except.error e) :
    run_audit env so r = Except.error e := by
  unfold run_audit
  rw [hx]
  rfl

/-- Modelled from the spec: the severity rank of each `check_flags` rule
message under the spec rule table (CRITICAL = 0, MODERATE = 1, MINOR = 2).
The market-conditions-addendum rule is MODERATE, the VA MPR rule is
CRITICAL; any other issue is ranked MODERATE. -/
def specSeverityRank (issue : String) : Nat :=
  if issue = vaMprMsg then 0 else 1

/-- Modelled from the spec: the flag-ranking sort key — severity rank
first, then issue text ascending. -/
def specKeyLe (a b : String) : Bool :=
  specSeverityRank a < specSeverityRank b ||
  (specSeverityRank a == specSeverityRank b && !(decide (b < a)))

/-- Modelled from the spec: is a flag list sorted by the ranking key? -/
def specRankSortedB : List String → Bool
  | [] => true
  | [_] => true
  | a :: b :: t => specKeyLe a b && specRankSortedB (b :: t)

/-- Counting a prefixed line in a prefixed line list. -/
theorem count_map_prepend (p : String) (L : List String) (x : String) :
    (L.map (fun f => p ++ f)).count (p ++ x) = L.count x := by
  induction L with
  | nil => rfl
  | cons a t ih =>
    rw [List.map_cons, List.count_cons, List.count_cons, ih]
    congr 1
    by_cases h : a = x
    · subst h; simp
    · have hne : ¬ (p ++ a = p ++ x) := fun hc => h (strAppend_left_cancel p a x hc)
      simp [h, hne]

/-! ## Claim theorems -/

/-- C4: the text normalizer `_normalize_text` is idempotent — for every
input string `x`, `normalize(normalize(x)) = normalize(x)`. -/
theorem normalize_text_idempotent (x : String) :
    normalizeText (normalizeText x) = normalizeText x :=
  strExt (normalizeTextL_idem x.data)

/-- C6: on the spec's example input `"26 26 a 1234567890"` (mixed
separators, lowercase mid segment) `_extract_va_case` returns the canonical
`"26-26-A-1234567"` (mid uppercased, tail truncated to 7 characters). -/
theorem va_case_spec_example :
    extract_va_case (("26 26 a 1234567890")) = (("26-26-A-1234567")) := by decide

/-- C5 counterexample: the effective-date extractor stores the matched text
verbatim; `"03-04-24"` is NOT normalized to `"Mar 04, 2024"`. -/
theorem effective_date_not_normalized :
    (extract_metadata (("Effective Date: 03-04-24"))).effective_date = (("03-04-24")) ∧
    (("03-04-24")) ≠ (("Mar 04, 2024")) :=
  ⟨by decide, by decide⟩

set_option maxRecDepth 200000 in
/-- C5 amended: `extract_metadata` stores the recognized effective-date text
verbatim — `"03-04-24"` stays `"03-04-24"` and `"March 4, 2024"` stays
`"March 4, 2024"`; no `Mon DD, YYYY` canonicalization is applied. -/
theorem effective_date_verbatim :
    (extract_metadata (("Effective Date: 03-04-24"))).effective_date = (("03-04-24")) ∧
    (extract_metadata (("Effective Date: March 4, 2024"))).effective_date =
      (("March 4, 2024")) :=
  ⟨by decide, by decide⟩

/-- C9 counterexample: `_extract_intended_use` fabricates the fixed value
`"Mortgage Lending."` on a no-match input instead of returning a not-found
result. -/
theorem intended_use_fabricated :
    extract_intended_use ([]) = (("Mortgage Lending.")).data ∧
    (("Mortgage Lending.")).data ≠ ([]) :=
  ⟨by decide, by decide⟩

/-- C9 amended: on a no-match input every `extract_metadata` field extractor
returns the empty not-found value, except the intended-use extractor, which
returns the fabricated default `"Mortgage Lending."`. -/
theorem extractors_not_found_defaults :
    (extract_metadata ((""))).effective_date = (("")) ∧
    (extract_metadata ((""))).form_type = (("")) ∧
    (extract_metadata ((""))).appraiser_name = (("")) ∧
    (extract_metadata ((""))).client = (("")) ∧
    (extract_metadata ((""))).purpose = (("")) ∧
    (extract_metadata ((""))).assignment_type = (("")) ∧
    (extract_metadata ((""))).rights_appraised = (("")) ∧
    (extract_metadata ((""))).value_conclusion = (("")) ∧
    (extract_metadata ((""))).va_case_number = (("")) ∧
    (extract_metadata ((""))).intended_use = (("Mortgage Lending.")) :=
  ⟨by decide, by decide, by decide, by decide, by decide, by decide, by decide,
   by decide, by decide, by decide⟩

/-- C1 counterexample: on an encrypted PDF the `/audit` endpoint returns the
web layer's JSON error object — not a five-section plain-text report — and
its message embeds the internal `RuntimeError` text raised by
`extract_text_with_azure`. -/
theorem audit_upload_leaks_exception :
    audit_upload envEnc true (("analyst")) (("ab")) =
      HttpResponse.jsonError
        (("Processing failed: Encrypted/PW-protected PDF is not supported.")) 422 ∧
    containsSub
      (("Processing failed: Encrypted/PW-protected PDF is not supported.")).data
      encryptedMsg.data = true :=
  ⟨by decide, by decide⟩

/-- C1 amended: the endpoint never propagates an exception — it returns a
200 plain-text report, or, when `run_audit` raises, a 422 JSON error whose
message is `"Processing failed: "` followed by the exception text. -/
theorem audit_upload_no_exception (env : PipeEnv) (style r : String) :
    (∃ b, audit_upload env true style r = HttpResponse.plainText b 200) ∨
    (∃ e, run_audit env (some style) r = Except.error e ∧
      audit_upload env true style r =
        HttpResponse.jsonError ((("Processing failed: ")) ++ e) 422) := by
  unfold audit_upload
  cases run_audit env (some style) r with
  | ok b => exact Or.inl ⟨b, rfl⟩
  | error e => exact Or.inr ⟨e, rfl, rfl⟩

/-- C2 amended: the `v27` output style is deterministic — the composed
report does not depend on the random request id. -/
theorem run_audit_v27_deterministic (env : PipeEnv) (r1 r2 : String) :
    run_audit env (some (("v27"))) r1 = run_audit env (some (("v27"))) r2 := by
  cases hx : extract_text_with_azure env with
  | ok t => rw [run_audit_v27_eq env t r1 hx, run_audit_v27_eq env t r2 hx]
  | error e => rw [run_audit_error_eq env _ r1 e hx, run_audit_error_eq env _ r2 e hx]

/-- C2 counterexample: the default analyst style embeds the fresh request id
(`secrets.token_hex(4)`) in its footer, so two runs over the same bytes and
configuration differ. -/
theorem run_audit_analyst_nondeterministic :
    run_audit env0 (some (("analyst"))) (("aa")) ≠
      run_audit env0 (some (("analyst"))) (("bb")) := by
  intro h
  rw [run_audit_analyst_eq env0 (("x")) (("aa")) rfl,
      run_audit_analyst_eq env0 (("x")) (("bb")) rfl] at h
  have h2 := Except.ok.inj h
  have h3 := compose_analyst_req_inj _ _ _ _ _ h2
  exact absurd h3 (by decide)

/-- C3 amended: the `v27` style emits exactly the five `[SECTION k]` header
lines, in order, for every metadata record and flag list whose rendered
lines are newline-free; the analyst style does not (see the
counterexample). -/
theorem v27_output_five_sections (md : Metadata) (flags : List String)
    (h : ∀ l ∈ v27Lines md flags, '\n' ∉ l.data) :
    (splitNlL (compose_output_v27 md flags).data).filter isV27Header =
      v27Headers.map String.data := by
  unfold compose_output_v27
  rw [splitNl_joinNl _ (v27Lines_ne_nil md flags) h, filter_map_data,
    v27Lines_filter_headers md flags]

set_option maxRecDepth 200000 in
/-- Witness for the amended C3 theorem at a concrete metadata record. -/
theorem v27_output_five_sections_witness :
    (splitNlL (compose_output_v27 (extract_metadata (("x"))) []).data).filter
      isV27Header = v27Headers.map String.data :=
  v27_output_five_sections (extract_metadata (("x"))) [] (by decide)

set_option maxRecDepth 200000 in
/-- C3 counterexample: the default analyst-style output contains none of the
five section-header lines (its sections are labelled differently and number
more than five), so the output does not have the claimed five labeled
sections. -/
theorem analyst_output_lacks_sections :
    (run_audit env0 (some (("analyst"))) (("ab"))).toOption.map headerLineCount =
      some 0 ∧ v27Headers.length = 5 := by
  constructor
  · rw [run_audit_analyst_eq env0 (("x")) (("ab")) rfl]
    show some (headerLineCount (compose_output_analyst (auditMd env0 (("x")))
      ((("x"))).data (auditPages env0) (("ab")))) = some 0
    have hnl : ∀ l ∈ analystLines (auditMd env0 (("x"))) ((("x"))).data
        (auditPages env0) (("ab")), '\n' ∉ l.data := by decide
    have hfil : (analystLines (auditMd env0 (("x"))) ((("x"))).data
        (auditPages env0) (("ab"))).filter
        (fun (s : String) => isV27Header s.data) = [] := by decide
    unfold headerLineCount compose_output_analyst
    rw [splitNl_joinNl _ (analystLines_ne_nil _ _ _ _) hnl, filter_map_data, hfil]
    rfl
  · rfl

/-- C7 counterexample: on a VA document the produced flag list is
`[m1004Msg, vaMprMsg]` — the MODERATE market-conditions flag precedes the
CRITICAL VA flag, so the list is not sorted by the spec's severity rank. -/
theorem check_flags_not_severity_sorted :
    check_flags ((("VA Loan")).data) (extract_metadata (("VA Loan"))) =
      [m1004Msg, vaMprMsg] ∧
    specRankSortedB [m1004Msg, vaMprMsg] = false :=
  ⟨by decide, by decide⟩

/-- C7 amended: `check_flags` emits its messages in the fixed rule order
(1004MC, VA MPR, signature) — a sublist of that three-message list — and
`summarize_top_flags` performs no sorting: with the engine's `k = 3` it
returns the flag list unchanged. -/
theorem check_flags_fixed_order (text : List Char) (md : Metadata) :
    List.Sublist (check_flags text md) [m1004Msg, vaMprMsg, sigMsg] ∧
    summarize_top_flags (check_flags text md) 3 = check_flags text md := by
  have hs : List.Sublist (check_flags text md)
      ([m1004Msg] ++ [vaMprMsg] ++ [sigMsg]) := by
    unfold check_flags
    refine List.Sublist.append (List.Sublist.append ?_ ?_) ?_
    · by_cases h : !hasMc text
      · rw [if_pos h]
      · rw [if_neg h]; exact List.nil_sublist _
    · by_cases h : md.is_va_loan = (("Yes")) && !hasMpr text
      · rw [if_pos h]
      · rw [if_neg h]; exact List.nil_sublist _
    · by_cases h : hasSignature text && !hasSigDate text
      · rw [if_pos h]
      · rw [if_neg h]; exact List.nil_sublist _
  refine ⟨hs, ?_⟩
  have hlen : (check_flags text md).length ≤ 3 := hs.length_le
  unfold summarize_top_flags
  exact List.take_of_length_le hlen

/-- C8 amended: for a VA-marked document with no MPR marker, `check_flags`
emits the (plain, severity-less) VA message exactly once, and the rendered
section-2 flag lines of the `v27` composer carry it exactly once. -/
theorem va_flag_emitted_once (text : List Char) (md : Metadata)
    (h1 : md.is_va_loan = (("Yes"))) (h2 : hasMpr text = false) :
    (check_flags text md).count vaMprMsg = 1 ∧
    (v27FlagLines (check_flags text md)
        ((("→ No material compliance flags detected by automated checks.")))).count
      ((("→ ")) ++ vaMprMsg) = 1 := by
  have hflags : check_flags text md =
      (if !hasMc text then [m1004Msg] else []) ++ [vaMprMsg] ++
      (if hasSignature text && !hasSigDate text then [sigMsg] else []) := by
    unfold check_flags
    rw [h1, h2]
    rfl
  have hcount : (check_flags text md).count vaMprMsg = 1 := by
    rw [hflags, List.count_append, List.count_append]
    have c1 : List.count vaMprMsg (if !hasMc text then [m1004Msg] else []) = 0 := by
      by_cases h : !hasMc text
      · rw [if_pos h]; decide
      · rw [if_neg h]; rfl
    have c3 : List.count vaMprMsg
        (if hasSignature text && !hasSigDate text then [sigMsg] else []) = 0 := by
      by_cases h : hasSignature text && !hasSigDate text
      · rw [if_pos h]; decide
      · rw [if_neg h]; rfl
    rw [c1, c3]
    rfl
  refine ⟨hcount, ?_⟩
  have hne : check_flags text md ≠ [] := by
    rw [hflags]
    exact List.append_ne_nil_of_left_ne_nil
      (List.append_ne_nil_of_right_ne_nil _ (List.cons_ne_nil _ _)) _
  unfold v27FlagLines
  rw [if_pos hne, count_map_prepend (("→ ")) (check_flags text md) vaMprMsg]
  exact hcount

/-- Witness for the amended C8 theorem on the text `"VA Loan"`. -/
theorem va_flag_emitted_once_witness :
    (check_flags ((("VA Loan")).data) (extract_metadata (("VA Loan")))).count
      vaMprMsg = 1 ∧
    (v27FlagLines (check_flags ((("VA Loan")).data) (extract_metadata (("VA Loan"))))
        ((("→ No material compliance flags detected by automated checks.")))).count
      ((("→ ")) ++ vaMprMsg) = 1 :=
  va_flag_emitted_once ((("VA Loan")).data) (extract_metadata (("VA Loan")))
    (by decide) (by decide)

set_option maxRecDepth 200000 in
/-- C8 counterexample: a VA-marked, MPR-free document yields a `v27` audit
output with no `CRITICAL` marker anywhere — the emitted VA flag is a plain
message with no severity tag and no rule identifier. -/
theorem va_critical_marker_absent :
    (extract_metadata (("VA Loan"))).is_va_loan = (("Yes")) ∧
    hasMpr ((("VA Loan")).data) = false ∧
    (run_audit envVA (some (("v27"))) (("aa"))).toOption.map
      (fun s => containsSub s.data ((("CRITICAL")).data)) = some false :=
  ⟨by decide, by decide, by decide⟩
